import Mathlib

/-!
Shallow embedding of the `array2d-rs` crate: dense 2D and 3D arrays backed by
a flat row-major buffer (`src/array2d.rs`, `src/array3d.rs`).

Rust `usize` values are modelled as `Nat` (the crate performs no subtraction
or overflow-prone arithmetic on them beyond multiplication of dimensions,
which the spec declares out of scope for overflow).  A Rust `panic!`/failed
`assert!`/out-of-range slice index is modelled as `Option.none`: every
fallible operation returns `Option`.  `Vec<T>` is modelled as `List T`.
-/

/-- Mirrors `Coord2D { x: usize, y: usize }` from `src/array2d.rs`. -/
structure Coord2D where
  x : Nat
  y : Nat
deriving DecidableEq, Repr

/-- Mirrors `Array2D<T> { width: usize, height: usize, data: Vec<T> }`. -/
structure Array2D (T : Type) where
  width : Nat
  height : Nat
  data : List T
deriving DecidableEq, Repr

/-- Rust slice expression `&l[b..e]`: panics (`none`) unless `b ≤ e ≤ l.length`. -/
def listSlice {T : Type} (l : List T) (b e : Nat) : Option (List T) :=
  if b ≤ e ∧ e ≤ l.length then some ((l.take e).drop b) else none

/-- Rust `dst.clone_from_slice(src)` where `dst = &mut l[b..e]`: the slice
indexing panics unless `b ≤ e ≤ l.length`, and `clone_from_slice` panics
unless the lengths agree. -/
def writeSlice {T : Type} (l : List T) (b e : Nat) (src : List T) : Option (List T) :=
  if b ≤ e ∧ e ≤ l.length ∧ src.length = e - b then
    some (l.take b ++ src ++ l.drop e)
  else none

namespace Array2D

variable {T : Type}

/-- `Array2D::new_with`: `data.resize(width * height, default)`. -/
def new_with (width height : Nat) (default : T) : Array2D T :=
  { width := width, height := height, data := List.replicate (width * height) default }

/-- `Array2D::new`: `new_with(width, height, T::default())`. -/
def new [Inhabited T] (width height : Nat) : Array2D T :=
  new_with width height (default : T)

/-- `Array2D::coord_is_valid`: `coord.x < self.width && coord.y < self.height`. -/
def coord_is_valid (a : Array2D T) (c : Coord2D) : Bool :=
  decide (c.x < a.width) && decide (c.y < a.height)

/-- `Array2D::coord_index`: `coord.x + self.width * coord.y`. -/
def coord_index (a : Array2D T) (c : Coord2D) : Nat :=
  c.x + a.width * c.y

/-- `Array2D::at`: asserts `coord_is_valid`, then indexes the backing vector
(an out-of-range index is itself a panic, hence the `Option` from `[·]?`). -/
def «at» (a : Array2D T) (c : Coord2D) : Option T :=
  if coord_is_valid a c then a.data[coord_index a c]? else none

/-- `Array2D::at_mut`: same checks as `at`; we model the returned `&mut T`
by the value it points at. -/
def at_mut (a : Array2D T) (c : Coord2D) : Option T :=
  if coord_is_valid a c then a.data[coord_index a c]? else none

/-- `Array2D::set`: `*self.at_mut(coord) = value`; aborts exactly when
`at_mut` does, otherwise stores `value` at the linear index. -/
def set (a : Array2D T) (c : Coord2D) (v : T) : Option (Array2D T) :=
  match at_mut a c with
  | none => none
  | some _ => some { a with data := a.data.set (coord_index a c) v }

/-- Writing one element through the slice returned by `Array2D::data_mut`
(`self.data` exposed as `&mut [T]`; a slice write cannot change the length). -/
def data_mut_write (a : Array2D T) (i : Nat) (v : T) : Array2D T :=
  { a with data := a.data.set i v }

/-- `Array2D::sub`, the row-gathering loop: for each `i in 0..height`,
append `self.data[width*(coord.y+i)+coord.x .. +width]`. -/
def sub_data (a : Array2D T) (c : Coord2D) (width height : Nat) : Option (List T) :=
  (List.range height).foldlM
    (fun acc i =>
      match listSlice a.data (a.width * (c.y + i) + c.x) (a.width * (c.y + i) + c.x + width) with
      | none => none
      | some s => some (acc ++ s))
    []

/-- `Array2D::sub`: asserts `width > 0`, `height > 0`, `coord_is_valid(coord)`,
then gathers the rows. -/
def sub (a : Array2D T) (c : Coord2D) (width height : Nat) : Option (Array2D T) :=
  if 0 < width ∧ 0 < height ∧ coord_is_valid a c then
    match sub_data a c width height with
    | none => none
    | some d => some { width := width, height := height, data := d }
  else none

/-- `Array2D::copy`, the row-blitting loop: for each `i in 0..source.height`,
`self.data[width*(dest.y+i)+dest.x ..][..source.width].clone_from_slice(&source.data[source.width*i ..][..source.width])`. -/
def copy_data (selfWidth : Nat) (d : List T) (source : Array2D T) (dest : Coord2D) :
    Option (List T) :=
  (List.range source.height).foldlM
    (fun acc i =>
      match listSlice source.data (source.width * i) (source.width * i + source.width) with
      | none => none
      | some src =>
          writeSlice acc (selfWidth * (dest.y + i) + dest.x)
            (selfWidth * (dest.y + i) + dest.x + source.width) src)
    d

/-- `Array2D::copy`: asserts `dest.x + source.width <= self.width` and
`dest.y + source.height <= self.height`, then blits row by row. -/
def copy (a : Array2D T) (source : Array2D T) (dest : Coord2D) : Option (Array2D T) :=
  if dest.x + source.width ≤ a.width ∧ dest.y + source.height ≤ a.height then
    match copy_data a.width a.data source dest with
    | none => none
    | some d => some { a with data := d }
  else none

/-- The coordinate-advance step shared by `Iter::next` and `IterMut::next`:
`x += 1; if x >= width { x = 0; y += 1 }`. -/
def iter_step (a : Array2D T) (c : Coord2D) : Coord2D :=
  if c.x + 1 ≥ a.width then ⟨0, c.y + 1⟩ else ⟨c.x + 1, c.y⟩

/-- Driving `Iter::next` until it returns `None` (or fuel runs out),
collecting the yielded `(coord, value)` pairs.  `Iter::next` yields
`Some((coord, at(coord)))` while `coord_is_valid(coord)` holds and advances
the cursor with `iter_step`; the first `None` ends the traversal. -/
def iter_collect (a : Array2D T) : Nat → Coord2D → List (Coord2D × Option T)
  | 0, _ => []
  | n + 1, c =>
      if coord_is_valid a c then (c, «at» a c) :: iter_collect a n (iter_step a c) else []

/-- Driving `IterMut::next` until it returns `None` (or fuel runs out),
writing the marker `f coord` through each yielded `&mut T` (a write through
the reference returned by `at_mut(coord)` stores at `coord_index(coord)`). -/
def iter_mut_write (f : Coord2D → T) : Nat → Array2D T → Coord2D → Array2D T
  | 0, a, _ => a
  | n + 1, a, c =>
      if coord_is_valid a c then
        iter_mut_write f n { a with data := a.data.set (coord_index a c) (f c) } (iter_step a c)
      else a

/-- The length invariant of `Array2D`: the backing vector holds exactly
`width * height` elements. -/
def WF (a : Array2D T) : Prop :=
  a.data.length = a.width * a.height

instance (a : Array2D T) : Decidable (WF a) := by
  unfold WF; infer_instance

end Array2D

/-- Mirrors `Coord3D { x: usize, y: usize, z: usize }` from `src/array3d.rs`. -/
structure Coord3D where
  x : Nat
  y : Nat
  z : Nat
deriving DecidableEq, Repr

/-- Mirrors `Array3D<T> { width: usize, height: usize, depth: usize, data: Vec<T> }`. -/
structure Array3D (T : Type) where
  width : Nat
  height : Nat
  depth : Nat
  data : List T
deriving DecidableEq, Repr

namespace Array3D

variable {T : Type}

/-- `Array3D::new_with`: `data.resize(width * height * depth, default)`. -/
def new_with (width height depth : Nat) (default : T) : Array3D T :=
  { width := width, height := height, depth := depth,
    data := List.replicate (width * height * depth) default }

/-- `Array3D::new`: `new_with(width, height, depth, T::default())`. -/
def new [Inhabited T] (width height depth : Nat) : Array3D T :=
  new_with width height depth (default : T)

/-- `Array3D::coord_is_valid`:
`coord.x < self.width && coord.y < self.height && coord.z < self.depth`. -/
def coord_is_valid (a : Array3D T) (c : Coord3D) : Bool :=
  decide (c.x < a.width) && decide (c.y < a.height) && decide (c.z < a.depth)

/-- `Array3D::coord_index`:
`coord.x + self.width * coord.y + self.width * self.height * coord.z`. -/
def coord_index (a : Array3D T) (c : Coord3D) : Nat :=
  c.x + a.width * c.y + a.width * a.height * c.z

/-- `Array3D::at`: asserts `coord_is_valid`, then indexes the backing vector. -/
def «at» (a : Array3D T) (c : Coord3D) : Option T :=
  if coord_is_valid a c then a.data[coord_index a c]? else none

/-- `Array3D::at_mut`: same checks as `at`; the returned `&mut T` is modelled
by the value it points at. -/
def at_mut (a : Array3D T) (c : Coord3D) : Option T :=
  if coord_is_valid a c then a.data[coord_index a c]? else none

/-- `Array3D::set`: `*self.at_mut(coord) = value`. -/
def set (a : Array3D T) (c : Coord3D) (v : T) : Option (Array3D T) :=
  match at_mut a c with
  | none => none
  | some _ => some { a with data := a.data.set (coord_index a c) v }

/-- Writing one element through the slice returned by `Array3D::data_mut`. -/
def data_mut_write (a : Array3D T) (i : Nat) (v : T) : Array3D T :=
  { a with data := a.data.set i v }

/-- `Array3D::copy_2d`, the row-blitting loop: for each `i in 0..source.height()`,
with `dst = Coord3D::new(dest.x, dest.y + i, dest.z)`,
`self.data[coord_index(dst) ..][..source.width()].clone_from_slice(&source.data()[source.width()*i ..][..source.width()])`. -/
def copy_2d_data (a : Array3D T) (d : List T) (source : Array2D T) (dest : Coord3D) :
    Option (List T) :=
  (List.range source.height).foldlM
    (fun acc i =>
      match listSlice source.data (source.width * i) (source.width * i + source.width) with
      | none => none
      | some src =>
          writeSlice acc (coord_index a ⟨dest.x, dest.y + i, dest.z⟩)
            (coord_index a ⟨dest.x, dest.y + i, dest.z⟩ + source.width) src)
    d

/-- `Array3D::copy_2d`: asserts `dest.x + source.width() <= self.width` and
`dest.y + source.height() <= self.height` (nothing about `dest.z`), then
blits row by row into the z-plane `dest.z`. -/
def copy_2d (a : Array3D T) (source : Array2D T) (dest : Coord3D) : Option (Array3D T) :=
  if dest.x + source.width ≤ a.width ∧ dest.y + source.height ≤ a.height then
    match copy_2d_data a a.data source dest with
    | none => none
    | some d => some { a with data := d }
  else none

/-- The coordinate-advance step shared by the 3D `Iter::next` and `IterMut::next`:
`x += 1; if x >= width { x = 0; y += 1 }; if y >= height { y = 0; z += 1 }`.
Note the second `if` is not guarded by the first. -/
def iter_step (a : Array3D T) (c : Coord3D) : Coord3D :=
  let c1 : Coord3D := if c.x + 1 ≥ a.width then ⟨0, c.y + 1, c.z⟩ else ⟨c.x + 1, c.y, c.z⟩
  if c1.y ≥ a.height then ⟨c1.x, 0, c1.z + 1⟩ else c1

/-- Driving the 3D `Iter::next` until it returns `None` (or fuel runs out). -/
def iter_collect (a : Array3D T) : Nat → Coord3D → List (Coord3D × Option T)
  | 0, _ => []
  | n + 1, c =>
      if coord_is_valid a c then (c, «at» a c) :: iter_collect a n (iter_step a c) else []

/-- Driving the 3D `IterMut::next` until it returns `None` (or fuel runs out),
writing the marker `f coord` through each yielded `&mut T`. -/
def iter_mut_write (f : Coord3D → T) : Nat → Array3D T → Coord3D → Array3D T
  | 0, a, _ => a
  | n + 1, a, c =>
      if coord_is_valid a c then
        iter_mut_write f n { a with data := a.data.set (coord_index a c) (f c) } (iter_step a c)
      else a

/-- The length invariant of `Array3D`. -/
def WF (a : Array3D T) : Prop :=
  a.data.length = a.width * a.height * a.depth

instance (a : Array3D T) : Decidable (WF a) := by
  unfold WF; infer_instance

end Array3D

/-! ### Basic list lemmas -/

theorem getElem?_isSome_iff {T : Type} (l : List T) (i : Nat) :
    l[i]?.isSome ↔ i < l.length := by
  constructor
  · intro h
    by_contra hc
    rw [List.getElem?_eq_none (by omega)] at h
    simp at h
  · intro h
    rw [List.getElem?_eq_getElem h]
    rfl

/-! ### Slice lemmas -/

theorem listSlice_eq {T : Type} {l : List T} {b e : Nat} (hbe : b ≤ e) (hel : e ≤ l.length) :
    listSlice l b e = some ((l.take e).drop b) := by
  simp [listSlice, hbe, hel]

theorem listSlice_length {T : Type} {l : List T} {b e : Nat} (hbe : b ≤ e) (hel : e ≤ l.length) :
    ((l.take e).drop b).length = e - b := by
  simp [List.length_drop, List.length_take]
  omega

theorem listSlice_getElem? {T : Type} {l : List T} {b e i : Nat} (hie : b + i < e) :
    ((l.take e).drop b)[i]? = l[b + i]? := by
  rw [List.getElem?_drop, List.getElem?_take_of_lt hie]

theorem writeSlice_eq {T : Type} {l src : List T} {b e : Nat}
    (hbe : b ≤ e) (hel : e ≤ l.length) (hsl : src.length = e - b) :
    writeSlice l b e src = some (l.take b ++ src ++ l.drop e) := by
  simp [writeSlice, hbe, hel, hsl]

theorem writeSlice_length {T : Type} {l src : List T} {b e : Nat}
    (hbe : b ≤ e) (hel : e ≤ l.length) (hsl : src.length = e - b) :
    (l.take b ++ src ++ l.drop e).length = l.length := by
  simp [List.length_append, List.length_take, List.length_drop]
  omega

theorem writeSlice_getElem?_lt {T : Type} {l src : List T} {b e k : Nat}
    (hbe : b ≤ e) (hel : e ≤ l.length) (hk : k < b) :
    (l.take b ++ src ++ l.drop e)[k]? = l[k]? := by
  rw [List.append_assoc, List.getElem?_append_left (by simp [List.length_take]; omega),
    List.getElem?_take_of_lt hk]

theorem writeSlice_getElem?_in {T : Type} {l src : List T} {b e k : Nat}
    (hbe : b ≤ e) (hel : e ≤ l.length) (hbk : b ≤ k) (hke : k < e) (hsl : src.length = e - b) :
    (l.take b ++ src ++ l.drop e)[k]? = src[k - b]? := by
  have htl : (l.take b).length = b := by simp [List.length_take]; omega
  rw [List.append_assoc, List.getElem?_append_right (by omega), htl,
    List.getElem?_append_left (by omega)]

theorem writeSlice_getElem?_ge {T : Type} {l src : List T} {b e k : Nat}
    (hbe : b ≤ e) (hel : e ≤ l.length) (hek : e ≤ k) (hsl : src.length = e - b) :
    (l.take b ++ src ++ l.drop e)[k]? = l[k]? := by
  have htl : (l.take b).length = b := by simp [List.length_take]; omega
  rw [List.append_assoc, List.getElem?_append_right (by omega), htl,
    List.getElem?_append_right (by omega), List.getElem?_drop]
  congr 1
  omega

/-! ### Row-major index arithmetic -/

theorem rowmajor_inj {W x x' y y' : Nat} (hx : x < W) (hx' : x' < W)
    (h : x + W * y = x' + W * y') : x = x' ∧ y = y' := by
  have hxm : (x + W * y) % W = x := by
    rw [Nat.add_mul_mod_self_left, Nat.mod_eq_of_lt hx]
  have hxm' : (x' + W * y') % W = x' := by
    rw [Nat.add_mul_mod_self_left, Nat.mod_eq_of_lt hx']
  have hxx : x = x' := by rw [← hxm, ← hxm', h]
  refine ⟨hxx, ?_⟩
  have hW : 0 < W := by omega
  have : W * y = W * y' := by omega
  exact Nat.eq_of_mul_eq_mul_left hW this

theorem rowmajor3_inj {W H x x' y y' z z' : Nat} (hx : x < W) (hx' : x' < W)
    (hy : y < H) (hy' : y' < H)
    (h : x + W * y + W * H * z = x' + W * y' + W * H * z') :
    x = x' ∧ y = y' ∧ z = z' := by
  have h1 : x + W * (y + H * z) = x' + W * (y' + H * z') := by ring_nf; ring_nf at h; omega
  obtain ⟨hxx, hyz⟩ := rowmajor_inj hx hx' h1
  obtain ⟨hyy, hzz⟩ := rowmajor_inj hy hy' hyz
  exact ⟨hxx, hyy, hzz⟩

/-! ### Generic row-blit loop, shared by `Array2D::copy` and `Array3D::copy_2d` -/

def blit_loop {T : Type} (d sdata : List T) (sw : Nat) (base : Nat → Nat) (n : Nat) :
    Option (List T) :=
  (List.range n).foldlM
    (fun acc i =>
      match listSlice sdata (sw * i) (sw * i + sw) with
      | none => none
      | some src => writeSlice acc (base i) (base i + sw) src)
    d

theorem copy_data_eq_blit {T : Type} (W : Nat) (d : List T) (s : Array2D T) (dest : Coord2D) :
    Array2D.copy_data W d s dest
      = blit_loop d s.data s.width (fun i => W * (dest.y + i) + dest.x) s.height := rfl

theorem copy_2d_data_eq_blit {T : Type} (a : Array3D T) (d : List T) (s : Array2D T)
    (dest : Coord3D) :
    Array3D.copy_2d_data a d s dest
      = blit_loop d s.data s.width
          (fun i => Array3D.coord_index a ⟨dest.x, dest.y + i, dest.z⟩) s.height := rfl

theorem base_mono {base : Nat → Nat} {sw : Nat} (hstep : ∀ i, base i + sw ≤ base (i + 1)) :
    ∀ p q, p ≤ q → base p ≤ base q := by
  intro p q hpq
  induction q with
  | zero =>
      have h0 : p = 0 := by omega
      subst h0
      exact Nat.le_refl _
  | succ q ih =>
      rcases Nat.lt_or_ge p (q + 1) with hlt | hge
      · have h1 := ih (by omega)
        have h2 := hstep q
        omega
      · have hp : p = q + 1 := by omega
        subst hp
        exact Nat.le_refl _

theorem blit_loop_spec {T : Type} (d sdata : List T) (sw : Nat) (base : Nat → Nat)
    (hstep : ∀ i, base i + sw ≤ base (i + 1)) (n : Nat)
    (hrange : ∀ i, i < n → base i + sw ≤ d.length)
    (hsrc : ∀ i, i < n → sw * i + sw ≤ sdata.length) :
    ∃ r, blit_loop d sdata sw base n = some r ∧ r.length = d.length ∧
      (∀ j i, j < n → i < sw → r[base j + i]? = sdata[sw * j + i]?) ∧
      (∀ k, (∀ j i, j < n → i < sw → k ≠ base j + i) → r[k]? = d[k]?) := by
  induction n with
  | zero =>
      refine ⟨d, by simp [blit_loop], rfl, ?_, ?_⟩
      · intro j i hj _
        omega
      · intro k _
        rfl
  | succ n ih =>
      obtain ⟨r, hr, hlen, hin, hout⟩ := ih (fun i hi => hrange i (by omega))
        (fun i hi => hsrc i (by omega))
      have hsn := hsrc n (by omega)
      have hslice := listSlice_eq (l := sdata) (b := sw * n) (e := sw * n + sw)
        (by omega) (by omega)
      have hsrclen : ((sdata.take (sw * n + sw)).drop (sw * n)).length = sw := by
        have := listSlice_length (l := sdata) (b := sw * n) (e := sw * n + sw)
          (by omega) (by omega)
        omega
      set src : List T := (sdata.take (sw * n + sw)).drop (sw * n) with hsrc_def
      have hbn : base n + sw ≤ r.length := by
        rw [hlen]
        exact hrange n (by omega)
      have hws := @writeSlice_eq T r src (base n) (base n + sw)
        (by omega) hbn (by omega)
      have hstep_eq : blit_loop d sdata sw base (n + 1)
          = some (r.take (base n) ++ src ++ r.drop (base n + sw)) := by
        unfold blit_loop
        rw [List.range_succ, List.foldlM_append]
        unfold blit_loop at hr
        rw [hr]
        simp only [Option.bind_eq_bind, Option.some_bind, List.foldlM, hslice]
        simpa using hws
      refine ⟨r.take (base n) ++ src ++ r.drop (base n + sw), hstep_eq, ?_, ?_, ?_⟩
      · rw [writeSlice_length (by omega) hbn (by omega), hlen]
      · intro j i hj hi
        rcases Nat.lt_or_ge j n with hjn | hjn
        · have hmono := base_mono hstep (j + 1) n (by omega)
          have hj1 := hstep j
          rw [writeSlice_getElem?_lt (by omega) hbn (by omega)]
          exact hin j i hjn hi
        · have hj' : j = n := by omega
          subst hj'
          rw [writeSlice_getElem?_in (by omega) hbn (by omega) (by omega) (by omega)]
          have hidx : base j + i - base j = i := by omega
          rw [hidx, hsrc_def, listSlice_getElem? (by omega)]
      · intro k hk
        rcases Nat.lt_or_ge k (base n) with hklt | hkge
        · rw [writeSlice_getElem?_lt (by omega) hbn (by omega)]
          exact hout k (fun j i hj hi => hk j i (by omega) hi)
        · rcases Nat.lt_or_ge k (base n + sw) with hkin | hkout
          · exfalso
            exact hk n (k - base n) (by omega) (by omega) (by omega)
          · rw [writeSlice_getElem?_ge (by omega) hbn (by omega) (by omega)]
            exact hout k (fun j i hj hi => hk j i (by omega) hi)

/-! ### Characterization of the `sub` row-gathering loop -/

theorem sub_data_spec {T : Type} (a : Array2D T) (c : Coord2D) (w : Nat) (h : Nat)
    (hrange : ∀ i, i < h → a.width * (c.y + i) + c.x + w ≤ a.data.length) :
    ∃ r, Array2D.sub_data a c w h = some r ∧ r.length = h * w ∧
      ∀ j i, j < h → i < w → r[w * j + i]? = a.data[a.width * (c.y + j) + c.x + i]? := by
  induction h with
  | zero =>
      refine ⟨[], by simp [Array2D.sub_data], by simp, ?_⟩
      intro j i hj _
      omega
  | succ h ih =>
      obtain ⟨r, hr, hlen, hin⟩ := ih (fun i hi => hrange i (by omega))
      have hrn := hrange h (by omega)
      have hslice := listSlice_eq (l := a.data) (b := a.width * (c.y + h) + c.x)
        (e := a.width * (c.y + h) + c.x + w) (by omega) (by omega)
      have hsl : ((a.data.take (a.width * (c.y + h) + c.x + w)).drop
          (a.width * (c.y + h) + c.x)).length = w := by
        have := listSlice_length (l := a.data) (b := a.width * (c.y + h) + c.x)
          (e := a.width * (c.y + h) + c.x + w) (by omega) (by omega)
        omega
      set src : List T := (a.data.take (a.width * (c.y + h) + c.x + w)).drop
        (a.width * (c.y + h) + c.x) with hsrc_def
      have hstep_eq : Array2D.sub_data a c w (h + 1) = some (r ++ src) := by
        unfold Array2D.sub_data
        rw [List.range_succ, List.foldlM_append]
        unfold Array2D.sub_data at hr
        rw [hr]
        simp only [Option.bind_eq_bind, Option.some_bind, List.foldlM, hslice]
        simp
      have hmul : (h + 1) * w = h * w + w := by
        rw [Nat.succ_mul]
      refine ⟨r ++ src, hstep_eq, by simp [List.length_append, hlen, hsl, hmul], ?_⟩
      intro j i hj hi
      rcases Nat.lt_or_ge j h with hjh | hjh
      · have h2 : w * (j + 1) ≤ w * h := Nat.mul_le_mul_left w (by omega)
        have h3 : w * h = h * w := Nat.mul_comm w h
        rw [Nat.mul_succ] at h2
        rw [List.getElem?_append_left (by rw [hlen]; omega)]
        exact hin j i hjh hi
      · have hj' : j = h := by omega
        subst hj'
        have h3 : w * j = j * w := Nat.mul_comm w j
        rw [List.getElem?_append_right (by rw [hlen]; omega), hlen]
        have hidx : w * j + i - j * w = i := by omega
        rw [hidx, hsrc_def, listSlice_getElem? (by omega)]

/-! ### Access-level lemmas, 2D -/

namespace Array2D

variable {T : Type}

theorem coord_is_valid_iff (a : Array2D T) (c : Coord2D) :
    coord_is_valid a c = true ↔ (c.x < a.width ∧ c.y < a.height) := by
  simp [coord_is_valid]

theorem coord_index_lt (a : Array2D T) {c : Coord2D}
    (hx : c.x < a.width) (hy : c.y < a.height) :
    coord_index a c < a.width * a.height := by
  unfold coord_index
  have h1 : a.width * (c.y + 1) ≤ a.width * a.height := Nat.mul_le_mul_left _ (by omega)
  rw [Nat.mul_succ] at h1
  omega

theorem coord_index_inj (a : Array2D T) {c c' : Coord2D}
    (hx : c.x < a.width) (hx' : c'.x < a.width)
    (h : coord_index a c = coord_index a c') : c = c' := by
  obtain ⟨h1, h2⟩ := rowmajor_inj hx hx' h
  cases c
  cases c'
  simp_all

theorem at_valid (a : Array2D T) {c : Coord2D} (hx : c.x < a.width) (hy : c.y < a.height) :
    «at» a c = a.data[coord_index a c]? := by
  simp [«at», coord_is_valid, hx, hy]

theorem at_invalid (a : Array2D T) {c : Coord2D} (h : ¬(c.x < a.width ∧ c.y < a.height)) :
    «at» a c = none := by
  unfold «at»
  rw [if_neg]
  simp only [coord_is_valid, Bool.and_eq_true, decide_eq_true_eq]
  exact h

theorem at_isSome (a : Array2D T) (c : Coord2D) (hwf : a.WF) :
    («at» a c).isSome ↔ (c.x < a.width ∧ c.y < a.height) := by
  constructor
  · intro h
    by_contra hc
    rw [at_invalid a hc] at h
    simp at h
  · rintro ⟨hx, hy⟩
    rw [at_valid a hx hy]
    rw [getElem?_isSome_iff, hwf]
    exact coord_index_lt a hx hy

theorem at_mut_eq_at (a : Array2D T) (c : Coord2D) : at_mut a c = «at» a c := rfl

theorem set_eq (a : Array2D T) {c : Coord2D} (v : T) (hwf : a.WF)
    (hx : c.x < a.width) (hy : c.y < a.height) :
    set a c v = some { a with data := a.data.set (coord_index a c) v } := by
  unfold set
  have hs : at_mut a c = «at» a c := rfl
  rw [hs, at_valid a hx hy, List.getElem?_eq_getElem (by rw [hwf]; exact coord_index_lt a hx hy)]

theorem set_isSome (a : Array2D T) (c : Coord2D) (v : T) (hwf : a.WF) :
    (set a c v).isSome ↔ (c.x < a.width ∧ c.y < a.height) := by
  constructor
  · intro h
    by_contra hc
    unfold set at h
    rw [at_mut_eq_at, at_invalid a hc] at h
    simp at h
  · rintro ⟨hx, hy⟩
    rw [set_eq a v hwf hx hy]
    rfl

end Array2D

/-! ### Access-level lemmas, 3D -/

namespace Array3D

variable {T : Type}

theorem coord_is_valid_iff3 (a : Array3D T) (c : Coord3D) :
    coord_is_valid a c = true ↔ (c.x < a.width ∧ c.y < a.height ∧ c.z < a.depth) := by
  simp [coord_is_valid]
  tauto

theorem coord_index_lt3 (a : Array3D T) {c : Coord3D}
    (hx : c.x < a.width) (hy : c.y < a.height) (hz : c.z < a.depth) :
    coord_index a c < a.width * a.height * a.depth := by
  unfold coord_index
  have h1 : a.width * (c.y + 1) ≤ a.width * a.height := Nat.mul_le_mul_left _ (by omega)
  have h2 : a.width * a.height * (c.z + 1) ≤ a.width * a.height * a.depth :=
    Nat.mul_le_mul_left _ (by omega)
  rw [Nat.mul_succ] at h1 h2
  omega

theorem coord_index_inj3 (a : Array3D T) {c c' : Coord3D}
    (hx : c.x < a.width) (hx' : c'.x < a.width)
    (hy : c.y < a.height) (hy' : c'.y < a.height)
    (h : coord_index a c = coord_index a c') : c = c' := by
  obtain ⟨h1, h2, h3⟩ := rowmajor3_inj hx hx' hy hy' h
  cases c
  cases c'
  simp_all

theorem at_valid3 (a : Array3D T) {c : Coord3D}
    (hx : c.x < a.width) (hy : c.y < a.height) (hz : c.z < a.depth) :
    «at» a c = a.data[coord_index a c]? := by
  simp [«at», coord_is_valid, hx, hy, hz]

theorem at_invalid3 (a : Array3D T) {c : Coord3D}
    (h : ¬(c.x < a.width ∧ c.y < a.height ∧ c.z < a.depth)) :
    «at» a c = none := by
  unfold «at»
  rw [if_neg]
  simp only [coord_is_valid, Bool.and_eq_true, decide_eq_true_eq]
  tauto

theorem at_isSome3 (a : Array3D T) (c : Coord3D) (hwf : a.WF) :
    («at» a c).isSome ↔ (c.x < a.width ∧ c.y < a.height ∧ c.z < a.depth) := by
  constructor
  · intro h
    by_contra hc
    rw [at_invalid3 a hc] at h
    simp at h
  · rintro ⟨hx, hy, hz⟩
    rw [at_valid3 a hx hy hz]
    rw [getElem?_isSome_iff, hwf]
    exact coord_index_lt3 a hx hy hz

theorem at_mut_eq_at3 (a : Array3D T) (c : Coord3D) : at_mut a c = «at» a c := rfl

theorem set_eq3 (a : Array3D T) {c : Coord3D} (v : T) (hwf : a.WF)
    (hx : c.x < a.width) (hy : c.y < a.height) (hz : c.z < a.depth) :
    set a c v = some { a with data := a.data.set (coord_index a c) v } := by
  unfold set
  rw [at_mut_eq_at3, at_valid3 a hx hy hz,
    List.getElem?_eq_getElem (by rw [hwf]; exact coord_index_lt3 a hx hy hz)]

theorem set_isSome3 (a : Array3D T) (c : Coord3D) (v : T) (hwf : a.WF) :
    (set a c v).isSome ↔ (c.x < a.width ∧ c.y < a.height ∧ c.z < a.depth) := by
  constructor
  · intro h
    by_contra hc
    unfold set at h
    rw [at_mut_eq_at3, at_invalid3 a hc] at h
    simp at h
  · rintro ⟨hx, hy, hz⟩
    rw [set_eq3 a v hwf hx hy hz]
    rfl

end Array3D

/-! ### Array-level spec of `sub` on a fully in-bounds region -/

theorem sub_spec {T : Type} (a : Array2D T) (c : Coord2D) (w h : Nat) (hwa : a.WF)
    (hw : 0 < w) (hh : 0 < h) (hx : c.x + w ≤ a.width) (hy : c.y + h ≤ a.height) :
    ∃ s, Array2D.sub a c w h = some s ∧ s.width = w ∧ s.height = h ∧ s.WF ∧
      ∀ i j, i < w → j < h →
        Array2D.«at» s ⟨i, j⟩ = Array2D.«at» a ⟨c.x + i, c.y + j⟩ := by
  have hrange : ∀ i, i < h → a.width * (c.y + i) + c.x + w ≤ a.data.length := by
    intro i hi
    rw [hwa]
    have h2 : a.width * (c.y + i + 1) ≤ a.width * a.height :=
      Nat.mul_le_mul_left _ (by omega)
    rw [Nat.mul_succ] at h2
    omega
  obtain ⟨r, hr, hlen, hin⟩ := sub_data_spec a c w h hrange
  have hcvalid : Array2D.coord_is_valid a c = true := by
    rw [Array2D.coord_is_valid_iff]
    omega
  refine ⟨⟨w, h, r⟩, ?_, rfl, rfl, ?_, ?_⟩
  · unfold Array2D.sub
    rw [if_pos ⟨hw, hh, hcvalid⟩, hr]
  · show r.length = w * h
    rw [hlen, Nat.mul_comm]
  · intro i j hi hj
    rw [Array2D.at_valid (⟨w, h, r⟩ : Array2D T) (c := ⟨i, j⟩) hi hj,
      Array2D.at_valid a (c := ⟨c.x + i, c.y + j⟩) (by simp; omega) (by simp; omega)]
    show r[i + w * j]? = a.data[(c.x + i) + a.width * (c.y + j)]?
    rw [show i + w * j = w * j + i by omega, hin j i hj hi]
    congr 1
    omega

/-! ### Array-level spec of `copy` -/

theorem copy_spec {T : Type} (a s : Array2D T) (dest : Coord2D) (hwa : a.WF) (hws : s.WF)
    (hx : dest.x + s.width ≤ a.width) (hy : dest.y + s.height ≤ a.height) :
    ∃ a', Array2D.copy a s dest = some a' ∧ a'.width = a.width ∧ a'.height = a.height ∧
      a'.WF ∧
      (∀ i j, i < s.width → j < s.height →
        Array2D.«at» a' ⟨dest.x + i, dest.y + j⟩ = Array2D.«at» s ⟨i, j⟩) ∧
      (∀ c : Coord2D, (c.x < dest.x ∨ dest.x + s.width ≤ c.x ∨ c.y < dest.y ∨
          dest.y + s.height ≤ c.y) → Array2D.«at» a' c = Array2D.«at» a c) := by
  have hstep : ∀ i, (a.width * (dest.y + i) + dest.x) + s.width
      ≤ a.width * (dest.y + (i + 1)) + dest.x := by
    intro i
    rw [show dest.y + (i + 1) = (dest.y + i) + 1 by omega, Nat.mul_succ]
    omega
  have hrange : ∀ i, i < s.height →
      (a.width * (dest.y + i) + dest.x) + s.width ≤ a.data.length := by
    intro i hi
    rw [hwa]
    have h2 : a.width * (dest.y + i + 1) ≤ a.width * a.height :=
      Nat.mul_le_mul_left _ (by omega)
    rw [Nat.mul_succ] at h2
    omega
  have hsrc : ∀ i, i < s.height → s.width * i + s.width ≤ s.data.length := by
    intro i hi
    rw [hws]
    have h2 : s.width * (i + 1) ≤ s.width * s.height := Nat.mul_le_mul_left _ (by omega)
    rw [Nat.mul_succ] at h2
    omega
  obtain ⟨r, hr, hlen, hin, hout⟩ := blit_loop_spec a.data s.data s.width
    (fun i => a.width * (dest.y + i) + dest.x) hstep s.height hrange hsrc
  refine ⟨⟨a.width, a.height, r⟩, ?_, rfl, rfl, ?_, ?_, ?_⟩
  · unfold Array2D.copy
    rw [if_pos ⟨hx, hy⟩, copy_data_eq_blit, hr]
  · show r.length = a.width * a.height
    rw [hlen, hwa]
  · intro i j hi hj
    rw [Array2D.at_valid (⟨a.width, a.height, r⟩ : Array2D T) (c := ⟨dest.x + i, dest.y + j⟩)
        (by simp; omega) (by simp; omega),
      Array2D.at_valid s (c := ⟨i, j⟩) hi hj]
    show r[(dest.x + i) + a.width * (dest.y + j)]? = s.data[i + s.width * j]?
    rw [show (dest.x + i) + a.width * (dest.y + j)
        = (a.width * (dest.y + j) + dest.x) + i by omega]
    rw [hin j i hj hi]
    congr 1
    omega
  · intro c hc
    by_cases hv : c.x < a.width ∧ c.y < a.height
    · rw [Array2D.at_valid (⟨a.width, a.height, r⟩ : Array2D T) (c := c) hv.1 hv.2,
        Array2D.at_valid a hv.1 hv.2]
      show r[c.x + a.width * c.y]? = a.data[c.x + a.width * c.y]?
      apply hout
      intro j i hj hi hknf
      have hxi : dest.x + i < a.width := by omega
      have heq : c.x + a.width * c.y = (dest.x + i) + a.width * (dest.y + j) := by omega
      obtain ⟨e1, e2⟩ := rowmajor_inj hv.1 hxi heq
      omega
    · rw [Array2D.at_invalid (⟨a.width, a.height, r⟩ : Array2D T) (c := c) hv,
        Array2D.at_invalid a hv]

/-! ### Array-level spec of `copy_2d` -/

theorem copy_2d_spec {T : Type} (a : Array3D T) (s : Array2D T) (dest : Coord3D)
    (hwa : a.WF) (hws : s.WF)
    (hx : dest.x + s.width ≤ a.width) (hy : dest.y + s.height ≤ a.height)
    (hz : dest.z < a.depth) :
    ∃ a', Array3D.copy_2d a s dest = some a' ∧ a'.width = a.width ∧
      a'.height = a.height ∧ a'.depth = a.depth ∧ a'.WF ∧
      (∀ i j, i < s.width → j < s.height →
        Array3D.«at» a' ⟨dest.x + i, dest.y + j, dest.z⟩ = Array2D.«at» s ⟨i, j⟩) ∧
      (∀ c : Coord3D, (c.z ≠ dest.z ∨ c.x < dest.x ∨ dest.x + s.width ≤ c.x ∨
          c.y < dest.y ∨ dest.y + s.height ≤ c.y) →
        Array3D.«at» a' c = Array3D.«at» a c) := by
  have hbase : ∀ i, Array3D.coord_index a ⟨dest.x, dest.y + i, dest.z⟩
      = dest.x + a.width * (dest.y + i) + a.width * a.height * dest.z := fun i => rfl
  have hstep : ∀ i, Array3D.coord_index a ⟨dest.x, dest.y + i, dest.z⟩ + s.width
      ≤ Array3D.coord_index a ⟨dest.x, dest.y + (i + 1), dest.z⟩ := by
    intro i
    rw [hbase, hbase, show dest.y + (i + 1) = (dest.y + i) + 1 by omega, Nat.mul_succ]
    omega
  have hrange : ∀ i, i < s.height →
      Array3D.coord_index a ⟨dest.x, dest.y + i, dest.z⟩ + s.width ≤ a.data.length := by
    intro i hi
    rw [hwa, hbase]
    have h2 : a.width * (dest.y + i + 1) ≤ a.width * a.height :=
      Nat.mul_le_mul_left _ (by omega)
    have h3 : a.width * a.height * (dest.z + 1) ≤ a.width * a.height * a.depth :=
      Nat.mul_le_mul_left _ (by omega)
    rw [Nat.mul_succ] at h2 h3
    omega
  have hsrc : ∀ i, i < s.height → s.width * i + s.width ≤ s.data.length := by
    intro i hi
    rw [hws]
    have h2 : s.width * (i + 1) ≤ s.width * s.height := Nat.mul_le_mul_left _ (by omega)
    rw [Nat.mul_succ] at h2
    omega
  obtain ⟨r, hr, hlen, hin, hout⟩ := blit_loop_spec a.data s.data s.width
    (fun i => Array3D.coord_index a ⟨dest.x, dest.y + i, dest.z⟩) hstep s.height hrange hsrc
  refine ⟨⟨a.width, a.height, a.depth, r⟩, ?_, rfl, rfl, rfl, ?_, ?_, ?_⟩
  · unfold Array3D.copy_2d
    rw [if_pos ⟨hx, hy⟩, copy_2d_data_eq_blit, hr]
  · show r.length = a.width * a.height * a.depth
    rw [hlen, hwa]
  · intro i j hi hj
    rw [Array3D.at_valid3 (⟨a.width, a.height, a.depth, r⟩ : Array3D T)
        (c := ⟨dest.x + i, dest.y + j, dest.z⟩) (by simp; omega) (by simp; omega)
        (by simp; omega),
      Array2D.at_valid s (c := ⟨i, j⟩) hi hj]
    show r[(dest.x + i) + a.width * (dest.y + j) + a.width * a.height * dest.z]?
      = s.data[i + s.width * j]?
    rw [show (dest.x + i) + a.width * (dest.y + j) + a.width * a.height * dest.z
        = (dest.x + a.width * (dest.y + j) + a.width * a.height * dest.z) + i by omega]
    have hj' := hin j i hj hi
    rw [hbase] at hj'
    rw [hj']
    congr 1
    omega
  · intro c hc
    by_cases hv : c.x < a.width ∧ c.y < a.height ∧ c.z < a.depth
    · rw [Array3D.at_valid3 (⟨a.width, a.height, a.depth, r⟩ : Array3D T) (c := c)
          hv.1 hv.2.1 hv.2.2,
        Array3D.at_valid3 a hv.1 hv.2.1 hv.2.2]
      show r[c.x + a.width * c.y + a.width * a.height * c.z]?
        = a.data[c.x + a.width * c.y + a.width * a.height * c.z]?
      apply hout
      intro j i hj hi hknf
      rw [hbase] at hknf
      have hxi : dest.x + i < a.width := by omega
      have hyj : dest.y + j < a.height := by omega
      have heq : c.x + a.width * c.y + a.width * a.height * c.z
          = (dest.x + i) + a.width * (dest.y + j) + a.width * a.height * dest.z := by omega
      obtain ⟨e1, e2, e3⟩ := rowmajor3_inj hv.1 hxi hv.2.1 hyj heq
      omega
    · rw [Array3D.at_invalid3 (⟨a.width, a.height, a.depth, r⟩ : Array3D T) (c := c) hv,
        Array3D.at_invalid3 a hv]

/-! ### The 2D iterator cursor: pure coordinate traversal -/

/-- The sequence of cursor positions the 2D iterator yields, as a function of
the dimensions only (the iterator's validity test and advance step read only
`width` and `height`). -/
def iterCoords2 (w h : Nat) : Nat → Coord2D → List Coord2D
  | 0, _ => []
  | n + 1, c =>
      if c.x < w ∧ c.y < h then
        c :: iterCoords2 w h n (if c.x + 1 ≥ w then ⟨0, c.y + 1⟩ else ⟨c.x + 1, c.y⟩)
      else []

/-- Row-major coordinate enumeration of a `w × h` grid, exactly as the spec
words it: x fastest within a row, then y. -/
def coords2D (w h : Nat) : List Coord2D :=
  (List.range h).flatMap (fun y => (List.range w).map (fun x => ⟨x, y⟩))

theorem iterCoords2_succ_mk (w h n x y : Nat) :
    iterCoords2 w h (n + 1) ⟨x, y⟩
      = if x < w ∧ y < h then
          (⟨x, y⟩ : Coord2D) :: iterCoords2 w h n (if x + 1 ≥ w then ⟨0, y + 1⟩ else ⟨x + 1, y⟩)
        else [] := rfl

theorem flatMap_congr {α β : Type} {l : List α} {f g : α → List β}
    (h : ∀ a ∈ l, f a = g a) : l.flatMap f = l.flatMap g := by
  induction l with
  | nil => rfl
  | cons a l ih =>
      rw [List.flatMap_cons, List.flatMap_cons, h a (by simp),
        ih (fun a' ha' => h a' (by simp [ha']))]

theorem iterCoords2_row (w h y : Nat) (hy : y < h) :
    ∀ j, j < w → ∀ n, iterCoords2 w h (n + (j + 1)) ⟨w - (j + 1), y⟩
      = (List.range (j + 1)).map (fun i => (⟨w - (j + 1) + i, y⟩ : Coord2D))
        ++ iterCoords2 w h n ⟨0, y + 1⟩ := by
  intro j
  induction j with
  | zero =>
      intro hj n
      show iterCoords2 w h (n + 1) ⟨w - 1, y⟩ = _
      rw [iterCoords2_succ_mk, if_pos ⟨by omega, hy⟩,
        if_pos (show w - 1 + 1 ≥ w by omega)]
      have h1 : List.range (0 + 1) = [0] := rfl
      rw [h1]
      simp

  | succ j ih =>
      intro hj n
      show iterCoords2 w h ((n + (j + 1)) + 1) ⟨w - (j + 2), y⟩ = _
      rw [iterCoords2_succ_mk, if_pos ⟨by omega, hy⟩,
        if_neg (show ¬(w - (j + 2) + 1 ≥ w) by omega),
        show w - (j + 2) + 1 = w - (j + 1) by omega, ih (by omega) n,
        show List.range (j + 1 + 1) = 0 :: (List.range (j + 1)).map Nat.succ
          from List.range_succ_eq_map (j + 1)]
      simp only [List.map_cons, List.map_map, List.cons_append]
      have hmap : List.map (fun i => (⟨w - (j + 1) + i, y⟩ : Coord2D)) (List.range (j + 1))
          = List.map ((fun i => (⟨w - (j + 1 + 1) + i, y⟩ : Coord2D)) ∘ Nat.succ)
              (List.range (j + 1)) := by
        apply List.map_congr_left
        intro a ha
        simp only [List.mem_range] at ha
        simp only [Function.comp, Nat.succ_eq_add_one, Coord2D.mk.injEq]
        exact ⟨by omega, trivial⟩
      rw [hmap]
      rfl

theorem iterCoords2_rows (w h : Nat) :
    ∀ k, k ≤ h → ∀ n, iterCoords2 w h (k * w + n + 1) ⟨0, h - k⟩
      = (List.range k).flatMap
          (fun j => (List.range w).map (fun x => (⟨x, h - k + j⟩ : Coord2D))) := by
  intro k
  induction k with
  | zero =>
      intro hk n
      show iterCoords2 w h ((0 * w + n) + 1) ⟨0, h⟩ = _
      rw [iterCoords2_succ_mk, if_neg (show ¬(0 < w ∧ h < h) by omega)]
      simp
  | succ k ih =>
      intro hk n
      by_cases hw : 0 < w
      · have hrow := iterCoords2_row w h (h - (k + 1)) (by omega) (w - 1) (by omega)
          (k * w + n + 1)
        rw [show w - 1 + 1 = w by omega, show w - w = 0 by omega,
          show h - (k + 1) + 1 = h - k by omega, ih (by omega) n] at hrow
        have hfuel : (k + 1) * w + n + 1 = (k * w + n + 1) + w := by
          rw [Nat.succ_mul]
          omega
        rw [hfuel, hrow, List.range_succ_eq_map, List.flatMap_cons, List.flatMap_map]
        congr 1
        · apply List.map_congr_left
          intro i hi
          simp
        · apply flatMap_congr
          intro j hj
          apply List.map_congr_left
          intro x hx
          have hyeq : h - (k + 1) + (j + 1) = h - k + j := by omega
          simp [Nat.succ_eq_add_one, hyeq]
      · have hw0 : w = 0 := by omega
        subst hw0
        show iterCoords2 0 h (((k + 1) * 0 + n) + 1) ⟨0, h - (k + 1)⟩ = _
        rw [iterCoords2_succ_mk, if_neg (show ¬((0:Nat) < 0 ∧ h - (k + 1) < h) by omega)]
        simp

theorem iterCoords2_full (w h n : Nat) :
    iterCoords2 w h (w * h + n + 1) ⟨0, 0⟩ = coords2D w h := by
  have hrows := iterCoords2_rows w h h (Nat.le_refl h) n
  rw [show h - h = 0 by omega] at hrows
  rw [show w * h = h * w by rw [Nat.mul_comm], hrows]
  unfold coords2D
  apply flatMap_congr
  intro j hj
  apply List.map_congr_left
  intro x hx
  simp

/-! ### The 3D iterator cursor: pure coordinate traversal -/

/-- The cursor advance of the 3D iterator as a function of the dimensions. -/
def stepCoords3 (w h : Nat) (c : Coord3D) : Coord3D :=
  let c1 : Coord3D := if c.x + 1 ≥ w then ⟨0, c.y + 1, c.z⟩ else ⟨c.x + 1, c.y, c.z⟩
  if c1.y ≥ h then ⟨c1.x, 0, c1.z + 1⟩ else c1

/-- The sequence of cursor positions the 3D iterator yields, as a function of
the dimensions only. -/
def iterCoords3 (w h d : Nat) : Nat → Coord3D → List Coord3D
  | 0, _ => []
  | n + 1, c =>
      if c.x < w ∧ c.y < h ∧ c.z < d then c :: iterCoords3 w h d n (stepCoords3 w h c)
      else []

/-- Plane-major coordinate enumeration of a `w × h × d` grid: x fastest,
then y, then z. -/
def coords3D (w h d : Nat) : List Coord3D :=
  (List.range d).flatMap (fun z =>
    (List.range h).flatMap (fun y => (List.range w).map (fun x => ⟨x, y, z⟩)))

theorem iterCoords3_succ_mk (w h d n x y z : Nat) :
    iterCoords3 w h d (n + 1) ⟨x, y, z⟩
      = if x < w ∧ y < h ∧ z < d then
          (⟨x, y, z⟩ : Coord3D) :: iterCoords3 w h d n (stepCoords3 w h ⟨x, y, z⟩)
        else [] := rfl

theorem stepCoords3_wrap (w h x y z : Nat) (hx : x + 1 ≥ w) (hy : y + 1 ≥ h) :
    stepCoords3 w h ⟨x, y, z⟩ = ⟨0, 0, z + 1⟩ := by
  simp [stepCoords3, if_pos hx]
  omega

theorem stepCoords3_rowend (w h x y z : Nat) (hx : x + 1 ≥ w) (hy : y + 1 < h) :
    stepCoords3 w h ⟨x, y, z⟩ = ⟨0, y + 1, z⟩ := by
  simp [stepCoords3, if_pos hx]
  omega

theorem stepCoords3_x (w h x y z : Nat) (hx : x + 1 < w) (hy : y < h) :
    stepCoords3 w h ⟨x, y, z⟩ = ⟨x + 1, y, z⟩ := by
  simp [stepCoords3, if_neg (show ¬(x + 1 ≥ w) by omega)]
  omega

theorem iterCoords3_row (w h d y z : Nat) (hy : y < h) (hz : z < d) :
    ∀ j, j < w → ∀ n, iterCoords3 w h d (n + (j + 1)) ⟨w - (j + 1), y, z⟩
      = (List.range (j + 1)).map (fun i => (⟨w - (j + 1) + i, y, z⟩ : Coord3D))
        ++ iterCoords3 w h d n (if y + 1 ≥ h then ⟨0, 0, z + 1⟩ else ⟨0, y + 1, z⟩) := by
  intro j
  induction j with
  | zero =>
      intro hj n
      show iterCoords3 w h d (n + 1) ⟨w - 1, y, z⟩ = _
      rw [iterCoords3_succ_mk, if_pos ⟨by omega, hy, hz⟩]
      have h1 : List.range (0 + 1) = [0] := rfl
      by_cases h2 : y + 1 ≥ h
      · rw [stepCoords3_wrap _ _ _ _ _ (by omega) h2, if_pos h2, h1]
        simp
      · rw [stepCoords3_rowend _ _ _ _ _ (by omega) (by omega), if_neg h2, h1]
        simp
  | succ j ih =>
      intro hj n
      show iterCoords3 w h d ((n + (j + 1)) + 1) ⟨w - (j + 2), y, z⟩ = _
      rw [iterCoords3_succ_mk, if_pos ⟨by omega, hy, hz⟩,
        stepCoords3_x _ _ _ _ _ (by omega) hy,
        show w - (j + 2) + 1 = w - (j + 1) by omega, ih (by omega) n,
        show List.range (j + 1 + 1) = 0 :: (List.range (j + 1)).map Nat.succ
          from List.range_succ_eq_map (j + 1)]
      simp only [List.map_cons, List.map_map, List.cons_append]
      have hmap : List.map (fun i => (⟨w - (j + 1) + i, y, z⟩ : Coord3D)) (List.range (j + 1))
          = List.map ((fun i => (⟨w - (j + 1 + 1) + i, y, z⟩ : Coord3D)) ∘ Nat.succ)
              (List.range (j + 1)) := by
        apply List.map_congr_left
        intro a ha
        simp only [List.mem_range] at ha
        simp only [Function.comp, Nat.succ_eq_add_one, Coord3D.mk.injEq]
        exact ⟨by omega, trivial, trivial⟩
      rw [hmap]
      rfl

theorem iterCoords3_plane (w h d z : Nat) (hw : 0 < w) (hz : z < d) :
    ∀ k, 0 < k → k ≤ h → ∀ n, iterCoords3 w h d (n + k * w) ⟨0, h - k, z⟩
      = (List.range k).flatMap
          (fun j => (List.range w).map (fun x => (⟨x, h - k + j, z⟩ : Coord3D)))
        ++ iterCoords3 w h d n ⟨0, 0, z + 1⟩ := by
  intro k
  induction k with
  | zero =>
      intro h0
      omega
  | succ k ih =>
      intro h0 hk n
      by_cases hk0 : k = 0
      · subst hk0
        have hrow := iterCoords3_row w h d (h - 1) z (by omega) hz (w - 1) (by omega) n
        rw [show w - 1 + 1 = w by omega, show w - w = 0 by omega,
          if_pos (show h - 1 + 1 ≥ h by omega)] at hrow
        show iterCoords3 w h d (n + 1 * w) ⟨0, h - 1, z⟩ = _
        rw [show 1 * w = w by omega, hrow]
        congr 1
        have h1 : List.range (0 + 1) = [0] := rfl
        rw [h1, List.flatMap_cons, List.flatMap_nil, List.append_nil]
        apply List.map_congr_left
        intro a ha
        simp
      · have hrow := iterCoords3_row w h d (h - (k + 1)) z (by omega) hz (w - 1) (by omega)
          (n + k * w)
        rw [show w - 1 + 1 = w by omega, show w - w = 0 by omega,
          if_neg (show ¬(h - (k + 1) + 1 ≥ h) by omega),
          show h - (k + 1) + 1 = h - k by omega, ih (by omega) (by omega) n] at hrow
        show iterCoords3 w h d (n + (k + 1) * w) ⟨0, h - (k + 1), z⟩ = _
        have hfuel : n + (k + 1) * w = (n + k * w) + w := by
          rw [Nat.succ_mul]
          omega
        rw [hfuel, hrow, ← List.append_assoc]
        congr 1
        rw [show List.range (k + 1) = 0 :: (List.range k).map Nat.succ
            from List.range_succ_eq_map k,
          List.flatMap_cons, List.flatMap_map]
        congr 1
        · apply List.map_congr_left
          intro a ha
          simp
        · apply flatMap_congr
          intro jj hjj
          apply List.map_congr_left
          intro x hx
          simp only [List.mem_range] at hjj
          simp only [Function.comp, Nat.succ_eq_add_one, Coord3D.mk.injEq]
          exact ⟨trivial, by omega, trivial⟩

theorem iterCoords3_planes (w h d : Nat) (hw : 0 < w) (hh : 0 < h) :
    ∀ m, m ≤ d → ∀ n, iterCoords3 w h d (m * (h * w) + n + 1) ⟨0, 0, d - m⟩
      = (List.range m).flatMap (fun zz => (List.range h).flatMap
          (fun y => (List.range w).map (fun x => (⟨x, y, d - m + zz⟩ : Coord3D)))) := by
  intro m
  induction m with
  | zero =>
      intro hm n
      show iterCoords3 w h d ((0 * (h * w) + n) + 1) ⟨0, 0, d⟩ = _
      rw [iterCoords3_succ_mk, if_neg (show ¬(0 < w ∧ 0 < h ∧ d < d) by omega)]
      simp
  | succ m ih =>
      intro hm n
      have hplane := iterCoords3_plane w h d (d - (m + 1)) hw (by omega) h (by omega)
        (Nat.le_refl h) (m * (h * w) + n + 1)
      rw [show h - h = 0 by omega, show d - (m + 1) + 1 = d - m by omega,
        ih (by omega) n] at hplane
      show iterCoords3 w h d ((m + 1) * (h * w) + n + 1) ⟨0, 0, d - (m + 1)⟩ = _
      have hfuel : (m + 1) * (h * w) + n + 1 = (m * (h * w) + n + 1) + h * w := by
        rw [Nat.succ_mul]
        omega
      rw [hfuel, hplane,
        show List.range (m + 1) = 0 :: (List.range m).map Nat.succ
          from List.range_succ_eq_map m,
        List.flatMap_cons, List.flatMap_map]
      congr 1
      · apply flatMap_congr
        intro j hj
        apply List.map_congr_left
        intro x hx
        simp
      · apply flatMap_congr
        intro zz hzz
        simp only [List.mem_range] at hzz
        apply flatMap_congr
        intro yy hyy
        apply List.map_congr_left
        intro x hx
        simp only [Function.comp, Nat.succ_eq_add_one, Coord3D.mk.injEq]
        exact ⟨trivial, trivial, by omega⟩

theorem iterCoords3_full (w h d n : Nat) :
    iterCoords3 w h d (w * h * d + n + 1) ⟨0, 0, 0⟩ = coords3D w h d := by
  by_cases hw : 0 < w
  · by_cases hh : 0 < h
    · have hp := iterCoords3_planes w h d hw hh d (Nat.le_refl d) n
      rw [show d - d = 0 by omega] at hp
      rw [show w * h * d = d * (h * w) by ring, hp]
      unfold coords3D
      apply flatMap_congr
      intro zz hzz
      apply flatMap_congr
      intro yy hyy
      apply List.map_congr_left
      intro x hx
      simp
    · have hh0 : h = 0 := by omega
      subst hh0
      show iterCoords3 w 0 d ((w * 0 * d + n) + 1) ⟨0, 0, 0⟩ = _
      rw [iterCoords3_succ_mk, if_neg (show ¬(0 < w ∧ 0 < 0 ∧ 0 < d) by omega)]
      simp [coords3D]
  · have hw0 : w = 0 := by omega
    subst hw0
    show iterCoords3 0 h d ((0 * h * d + n) + 1) ⟨0, 0, 0⟩ = _
    rw [iterCoords3_succ_mk, if_neg (show ¬((0:Nat) < 0 ∧ 0 < h ∧ 0 < d) by omega)]
    simp [coords3D]

/-! ### Bridging the source iterators to the pure cursor traversals -/

theorem iterCoords2_succ (w h n : Nat) (c : Coord2D) :
    iterCoords2 w h (n + 1) c
      = if c.x < w ∧ c.y < h then
          c :: iterCoords2 w h n (if c.x + 1 ≥ w then ⟨0, c.y + 1⟩ else ⟨c.x + 1, c.y⟩)
        else [] := rfl

theorem iterCoords3_succ (w h d n : Nat) (c : Coord3D) :
    iterCoords3 w h d (n + 1) c
      = if c.x < w ∧ c.y < h ∧ c.z < d then c :: iterCoords3 w h d n (stepCoords3 w h c)
        else [] := rfl

theorem iter_collect2_eq {T : Type} (a : Array2D T) : ∀ n c,
    Array2D.iter_collect a n c
      = (iterCoords2 a.width a.height n c).map (fun c' => (c', Array2D.«at» a c')) := by
  intro n
  induction n with
  | zero =>
      intro c
      rfl
  | succ n ih =>
      intro c
      show (if Array2D.coord_is_valid a c then
          (c, Array2D.«at» a c) :: Array2D.iter_collect a n (Array2D.iter_step a c)
        else []) = _
      rw [iterCoords2_succ]
      by_cases hv : c.x < a.width ∧ c.y < a.height
      · rw [if_pos ((Array2D.coord_is_valid_iff a c).mpr hv), if_pos hv, List.map_cons,
          ih (Array2D.iter_step a c)]
        rfl
      · rw [if_neg (fun hc => hv ((Array2D.coord_is_valid_iff a c).mp hc)), if_neg hv]
        rfl

theorem iter_collect3_eq {T : Type} (b : Array3D T) : ∀ n c,
    Array3D.iter_collect b n c
      = (iterCoords3 b.width b.height b.depth n c).map (fun c' => (c', Array3D.«at» b c')) := by
  intro n
  induction n with
  | zero =>
      intro c
      rfl
  | succ n ih =>
      intro c
      show (if Array3D.coord_is_valid b c then
          (c, Array3D.«at» b c) :: Array3D.iter_collect b n (Array3D.iter_step b c)
        else []) = _
      rw [iterCoords3_succ]
      by_cases hv : c.x < b.width ∧ c.y < b.height ∧ c.z < b.depth
      · rw [if_pos ((Array3D.coord_is_valid_iff3 b c).mpr hv), if_pos hv, List.map_cons,
          ih (Array3D.iter_step b c)]
        rfl
      · rw [if_neg (fun hc => hv ((Array3D.coord_is_valid_iff3 b c).mp hc)), if_neg hv]
        rfl

/-! ### Accumulated index-writes -/

/-- Folding a list of (index, value) writes over a flat buffer, in order. -/
def write_pairs {T : Type} (l : List T) (ps : List (Nat × T)) : List T :=
  ps.foldl (fun d p => d.set p.1 p.2) l

theorem write_pairs_nil {T : Type} (l : List T) : write_pairs l [] = l := rfl

theorem write_pairs_cons {T : Type} (l : List T) (p : Nat × T) (ps : List (Nat × T)) :
    write_pairs l (p :: ps) = write_pairs (l.set p.1 p.2) ps := rfl

theorem write_pairs_length {T : Type} : ∀ (ps : List (Nat × T)) (l : List T),
    (write_pairs l ps).length = l.length := by
  intro ps
  induction ps with
  | nil =>
      intro l
      rfl
  | cons p ps ih =>
      intro l
      rw [write_pairs_cons, ih, List.length_set]

theorem write_pairs_frame {T : Type} : ∀ (ps : List (Nat × T)) (l : List T) (i : Nat),
    (∀ p ∈ ps, p.1 ≠ i) → (write_pairs l ps)[i]? = l[i]? := by
  intro ps
  induction ps with
  | nil =>
      intro l i _
      rfl
  | cons p ps ih =>
      intro l i hp
      rw [write_pairs_cons, ih _ i (fun q hq => hp q (by simp [hq])),
        List.getElem?_set_ne (hp p (by simp))]

theorem write_pairs_last {T : Type} (s t : List (Nat × T)) (l : List T) (i : Nat) (v : T)
    (hi : i < l.length) (ht : ∀ p ∈ t, p.1 ≠ i) :
    (write_pairs l (s ++ (i, v) :: t))[i]? = some v := by
  unfold write_pairs
  rw [List.foldl_append]
  show (write_pairs (write_pairs l s) ((i, v) :: t))[i]? = some v
  rw [write_pairs_cons, write_pairs_frame t _ i ht, List.getElem?_set]
  have hlen : i < (write_pairs l s).length := by
    rw [write_pairs_length]
    exact hi
  simp [hlen]

theorem iter_mut_write2_eq {T : Type} (f : Coord2D → T) : ∀ n (a : Array2D T) c,
    Array2D.iter_mut_write f n a c
      = { a with data := (write_pairs a.data
          ((iterCoords2 a.width a.height n c).map
            (fun c' => (Array2D.coord_index a c', f c')))) } := by
  intro n
  induction n with
  | zero =>
      intro a c
      rfl
  | succ n ih =>
      intro a c
      show (if Array2D.coord_is_valid a c then
          Array2D.iter_mut_write f n
            { a with data := a.data.set (Array2D.coord_index a c) (f c) }
            (Array2D.iter_step a c)
        else a) = _
      rw [iterCoords2_succ]
      by_cases hv : c.x < a.width ∧ c.y < a.height
      · rw [if_pos ((Array2D.coord_is_valid_iff a c).mpr hv), if_pos hv,
          ih { a with data := a.data.set (Array2D.coord_index a c) (f c) }
            (Array2D.iter_step a c)]
        rfl
      · rw [if_neg (fun hc => hv ((Array2D.coord_is_valid_iff a c).mp hc)), if_neg hv]
        rfl

theorem iter_mut_write3_eq {T : Type} (f : Coord3D → T) : ∀ n (b : Array3D T) c,
    Array3D.iter_mut_write f n b c
      = { b with data := (write_pairs b.data
          ((iterCoords3 b.width b.height b.depth n c).map
            (fun c' => (Array3D.coord_index b c', f c')))) } := by
  intro n
  induction n with
  | zero =>
      intro b c
      rfl
  | succ n ih =>
      intro b c
      show (if Array3D.coord_is_valid b c then
          Array3D.iter_mut_write f n
            { b with data := b.data.set (Array3D.coord_index b c) (f c) }
            (Array3D.iter_step b c)
        else b) = _
      rw [iterCoords3_succ]
      by_cases hv : c.x < b.width ∧ c.y < b.height ∧ c.z < b.depth
      · rw [if_pos ((Array3D.coord_is_valid_iff3 b c).mpr hv), if_pos hv,
          ih { b with data := b.data.set (Array3D.coord_index b c) (f c) }
            (Array3D.iter_step b c)]
        rfl
      · rw [if_neg (fun hc => hv ((Array3D.coord_is_valid_iff3 b c).mp hc)), if_neg hv]
        rfl

/-! ### Membership, length and distinctness of the row-major enumerations -/

theorem mem_coords2D (w h : Nat) (c : Coord2D) :
    c ∈ coords2D w h ↔ (c.x < w ∧ c.y < h) := by
  cases c with
  | mk x y =>
      unfold coords2D
      simp only [List.mem_flatMap, List.mem_map, List.mem_range, Coord2D.mk.injEq]
      constructor
      · rintro ⟨y', hy', x', hx', rfl, rfl⟩
        exact ⟨hx', hy'⟩
      · rintro ⟨hx, hy⟩
        exact ⟨y, hy, x, hx, rfl, rfl⟩

theorem mem_coords3D (w h d : Nat) (c : Coord3D) :
    c ∈ coords3D w h d ↔ (c.x < w ∧ c.y < h ∧ c.z < d) := by
  cases c with
  | mk x y z =>
      unfold coords3D
      simp only [List.mem_flatMap, List.mem_map, List.mem_range, Coord3D.mk.injEq]
      constructor
      · rintro ⟨z', hz', y', hy', x', hx', rfl, rfl, rfl⟩
        exact ⟨hx', hy', hz'⟩
      · rintro ⟨hx, hy, hz⟩
        exact ⟨z, hz, y, hy, x, hx, rfl, rfl, rfl⟩

theorem length_coords2D (w h : Nat) : (coords2D w h).length = w * h := by
  unfold coords2D
  rw [List.length_flatMap]
  have hmap : List.map (List.length ∘ fun y => (List.range w).map
      (fun x => (⟨x, y⟩ : Coord2D))) (List.range h) = List.replicate h w := by
    rw [List.eq_replicate_iff]
    constructor
    · simp
    · intro b hb
      simp only [List.mem_map, Function.comp, List.length_map, List.length_range] at hb
      obtain ⟨y, _, rfl⟩ := hb
      rfl
  rw [hmap, List.sum_replicate, smul_eq_mul, Nat.mul_comm]

theorem length_coords3D (w h d : Nat) : (coords3D w h d).length = w * h * d := by
  unfold coords3D
  rw [List.length_flatMap]
  have hmap : List.map (List.length ∘ fun z => (List.range h).flatMap
      (fun y => (List.range w).map (fun x => (⟨x, y, z⟩ : Coord3D)))) (List.range d)
      = List.replicate d (w * h) := by
    rw [List.eq_replicate_iff]
    constructor
    · simp
    · intro b hb
      simp only [List.mem_map, Function.comp] at hb
      obtain ⟨z, _, rfl⟩ := hb
      rw [List.length_flatMap]
      have hinner : List.map (List.length ∘ fun y => (List.range w).map
          (fun x => (⟨x, y, z⟩ : Coord3D))) (List.range h) = List.replicate h w := by
        rw [List.eq_replicate_iff]
        constructor
        · simp
        · intro b hb
          simp only [List.mem_map, Function.comp, List.length_map, List.length_range] at hb
          obtain ⟨y, _, rfl⟩ := hb
          rfl
      rw [hinner, List.sum_replicate, smul_eq_mul, Nat.mul_comm]
  rw [hmap, List.sum_replicate, smul_eq_mul, Nat.mul_comm]

theorem nodup_coords2D (w h : Nat) : (coords2D w h).Nodup := by
  unfold coords2D
  rw [List.nodup_flatMap]
  constructor
  · intro y hy
    exact List.Nodup.map (fun x1 x2 hx => by simpa using hx) (List.nodup_range w)
  · apply List.Pairwise.imp ?_ (List.pairwise_lt_range h)
    intro y1 y2 hlt
    show List.Disjoint _ _
    rw [List.disjoint_left]
    intro c hc1 hc2
    simp only [List.mem_map, List.mem_range] at hc1 hc2
    obtain ⟨x1, hx1, rfl⟩ := hc1
    obtain ⟨x2, hx2, he⟩ := hc2
    have := (Coord2D.mk.injEq x2 y2 x1 y1).mp he
    omega

theorem nodup_coords3D (w h d : Nat) : (coords3D w h d).Nodup := by
  unfold coords3D
  rw [List.nodup_flatMap]
  constructor
  · intro z hz
    rw [List.nodup_flatMap]
    constructor
    · intro y hy
      exact List.Nodup.map (fun x1 x2 hx => by simpa using hx) (List.nodup_range w)
    · apply List.Pairwise.imp ?_ (List.pairwise_lt_range h)
      intro y1 y2 hlt
      show List.Disjoint _ _
      rw [List.disjoint_left]
      intro c hc1 hc2
      simp only [List.mem_map, List.mem_range] at hc1 hc2
      obtain ⟨x1, hx1, rfl⟩ := hc1
      obtain ⟨x2, hx2, he⟩ := hc2
      have := (Coord3D.mk.injEq x2 y2 z x1 y1 z).mp he
      omega
  · apply List.Pairwise.imp ?_ (List.pairwise_lt_range d)
    intro z1 z2 hlt
    show List.Disjoint _ _
    rw [List.disjoint_left]
    intro c hc1 hc2
    simp only [List.mem_flatMap, List.mem_map, List.mem_range] at hc1 hc2
    obtain ⟨y1, hy1, x1, hx1, rfl⟩ := hc1
    obtain ⟨y2, hy2, x2, hx2, he⟩ := hc2
    have := (Coord3D.mk.injEq x2 y2 z2 x1 y1 z1).mp he
    omega

/-! ### Reading back markers written through one full mutable traversal -/

theorem at_mk2 {T : Type} (w h : Nat) (dl : List T) {c : Coord2D}
    (hx : c.x < w) (hy : c.y < h) :
    Array2D.«at» ⟨w, h, dl⟩ c = dl[c.x + w * c.y]? :=
  Array2D.at_valid (⟨w, h, dl⟩ : Array2D T) hx hy

theorem at_mk3 {T : Type} (w h d : Nat) (dl : List T) {c : Coord3D}
    (hx : c.x < w) (hy : c.y < h) (hz : c.z < d) :
    Array3D.«at» ⟨w, h, d, dl⟩ c = dl[c.x + w * c.y + w * h * c.z]? :=
  Array3D.at_valid3 (⟨w, h, d, dl⟩ : Array3D T) hx hy hz

theorem marker_read2 {T : Type} (a : Array2D T) (f : Coord2D → T) (hwf : a.WF) (n : Nat)
    (c : Coord2D) (hx : c.x < a.width) (hy : c.y < a.height) :
    Array2D.«at» (Array2D.iter_mut_write f (a.width * a.height + n + 1) a ⟨0, 0⟩) c
      = some (f c) := by
  rw [iter_mut_write2_eq, iterCoords2_full, at_mk2 a.width a.height _ hx hy]
  show (write_pairs a.data ((coords2D a.width a.height).map
      (fun c' => (Array2D.coord_index a c', f c'))))[Array2D.coord_index a c]? = some (f c)
  have hc : c ∈ coords2D a.width a.height := (mem_coords2D _ _ c).mpr ⟨hx, hy⟩
  obtain ⟨s, t, hst⟩ := List.mem_iff_append.mp hc
  have hnd : (coords2D a.width a.height).Nodup := nodup_coords2D _ _
  rw [hst] at hnd
  have hct : c ∉ t := (List.nodup_cons.mp (List.Nodup.of_append_right hnd)).1
  rw [hst, List.map_append, List.map_cons]
  apply write_pairs_last
  · rw [hwf]
    exact Array2D.coord_index_lt a hx hy
  · intro p hp
    simp only [List.mem_map] at hp
    obtain ⟨c', hc', rfl⟩ := hp
    intro he
    have hc'mem : c' ∈ coords2D a.width a.height := by
      rw [hst]
      simp [hc']
    have hval := (mem_coords2D _ _ c').mp hc'mem
    have hcc := Array2D.coord_index_inj a hval.1 hx he
    exact hct (hcc ▸ hc')

theorem marker_read3 {T : Type} (b : Array3D T) (f : Coord3D → T) (hwf : b.WF) (n : Nat)
    (c : Coord3D) (hx : c.x < b.width) (hy : c.y < b.height) (hz : c.z < b.depth) :
    Array3D.«at» (Array3D.iter_mut_write f (b.width * b.height * b.depth + n + 1) b ⟨0, 0, 0⟩) c
      = some (f c) := by
  rw [iter_mut_write3_eq, iterCoords3_full, at_mk3 b.width b.height b.depth _ hx hy hz]
  show (write_pairs b.data ((coords3D b.width b.height b.depth).map
      (fun c' => (Array3D.coord_index b c', f c'))))[Array3D.coord_index b c]? = some (f c)
  have hc : c ∈ coords3D b.width b.height b.depth := (mem_coords3D _ _ _ c).mpr ⟨hx, hy, hz⟩
  obtain ⟨s, t, hst⟩ := List.mem_iff_append.mp hc
  have hnd : (coords3D b.width b.height b.depth).Nodup := nodup_coords3D _ _ _
  rw [hst] at hnd
  have hct : c ∉ t := (List.nodup_cons.mp (List.Nodup.of_append_right hnd)).1
  rw [hst, List.map_append, List.map_cons]
  apply write_pairs_last
  · rw [hwf]
    exact Array3D.coord_index_lt3 b hx hy hz
  · intro p hp
    simp only [List.mem_map] at hp
    obtain ⟨c', hc', rfl⟩ := hp
    intro he
    have hc'mem : c' ∈ coords3D b.width b.height b.depth := by
      rw [hst]
      simp [hc']
    have hval := (mem_coords3D _ _ _ c').mp hc'mem
    have hcc := Array3D.coord_index_inj3 b hval.1 hx hval.2.1 hy he
    exact hct (hcc ▸ hc')

/-! ## Claim theorems -/

/-- C7: for every 2D or 3D array, every valid coordinate `c` and value `v`,
`set c v` succeeds, a subsequent `at c` returns `v`, and every other
coordinate reads exactly as before the `set`. -/
theorem claim_C7 {T : Type} (a : Array2D T) (b : Array3D T) (c : Coord2D) (d : Coord3D)
    (v u : T) (hwa : a.WF) (hwb : b.WF)
    (hc : c.x < a.width ∧ c.y < a.height)
    (hd : d.x < b.width ∧ d.y < b.height ∧ d.z < b.depth) :
    (∃ a', Array2D.set a c v = some a' ∧ Array2D.«at» a' c = some v ∧
      ∀ c' : Coord2D, c' ≠ c → Array2D.«at» a' c' = Array2D.«at» a c')
    ∧ (∃ b', Array3D.set b d u = some b' ∧ Array3D.«at» b' d = some u ∧
      ∀ d' : Coord3D, d' ≠ d → Array3D.«at» b' d' = Array3D.«at» b d') := by
  constructor
  · refine ⟨⟨a.width, a.height, a.data.set (Array2D.coord_index a c) v⟩, ?_, ?_, ?_⟩
    · exact Array2D.set_eq a v hwa hc.1 hc.2
    · rw [at_mk2 a.width a.height _ hc.1 hc.2]
      show (a.data.set (Array2D.coord_index a c) v)[Array2D.coord_index a c]? = some v
      rw [List.getElem?_set]
      have hlen : Array2D.coord_index a c < a.data.length := by
        rw [hwa]
        exact Array2D.coord_index_lt a hc.1 hc.2
      simp [hlen]
    · intro c' hne
      by_cases hv' : c'.x < a.width ∧ c'.y < a.height
      · rw [at_mk2 a.width a.height _ hv'.1 hv'.2, Array2D.at_valid a hv'.1 hv'.2]
        show (a.data.set (Array2D.coord_index a c) v)[Array2D.coord_index a c']?
          = a.data[Array2D.coord_index a c']?
        apply List.getElem?_set_ne
        intro he
        exact hne (Array2D.coord_index_inj a hc.1 hv'.1 he).symm
      · rw [Array2D.at_invalid a hv']
        exact Array2D.at_invalid _ hv'
  · refine ⟨⟨b.width, b.height, b.depth, b.data.set (Array3D.coord_index b d) u⟩, ?_, ?_, ?_⟩
    · exact Array3D.set_eq3 b u hwb hd.1 hd.2.1 hd.2.2
    · rw [at_mk3 b.width b.height b.depth _ hd.1 hd.2.1 hd.2.2]
      show (b.data.set (Array3D.coord_index b d) u)[Array3D.coord_index b d]? = some u
      rw [List.getElem?_set]
      have hlen : Array3D.coord_index b d < b.data.length := by
        rw [hwb]
        exact Array3D.coord_index_lt3 b hd.1 hd.2.1 hd.2.2
      simp [hlen]
    · intro d' hne
      by_cases hv' : d'.x < b.width ∧ d'.y < b.height ∧ d'.z < b.depth
      · rw [at_mk3 b.width b.height b.depth _ hv'.1 hv'.2.1 hv'.2.2,
          Array3D.at_valid3 b hv'.1 hv'.2.1 hv'.2.2]
        show (b.data.set (Array3D.coord_index b d) u)[Array3D.coord_index b d']?
          = b.data[Array3D.coord_index b d']?
        apply List.getElem?_set_ne
        intro he
        exact hne (Array3D.coord_index_inj3 b hd.1 hv'.1 hd.2.1 hv'.2.1 he).symm
      · rw [Array3D.at_invalid3 b hv']
        exact Array3D.at_invalid3 _ hv'

/-- Witness for C7 on a concrete 2×2 array and a 1×1×2 array. -/
theorem claim_C7_witness :
    (∃ a', Array2D.set (⟨2, 2, [0, 1, 2, 3]⟩ : Array2D Nat) ⟨1, 0⟩ 9 = some a' ∧
      Array2D.«at» a' ⟨1, 0⟩ = some 9 ∧
      ∀ c' : Coord2D, c' ≠ ⟨1, 0⟩ →
        Array2D.«at» a' c' = Array2D.«at» (⟨2, 2, [0, 1, 2, 3]⟩ : Array2D Nat) c')
    ∧ (∃ b', Array3D.set (⟨1, 1, 2, [5, 6]⟩ : Array3D Nat) ⟨0, 0, 1⟩ 7 = some b' ∧
      Array3D.«at» b' ⟨0, 0, 1⟩ = some 7 ∧
      ∀ d' : Coord3D, d' ≠ ⟨0, 0, 1⟩ →
        Array3D.«at» b' d' = Array3D.«at» (⟨1, 1, 2, [5, 6]⟩ : Array3D Nat) d') :=
  claim_C7 ⟨2, 2, [0, 1, 2, 3]⟩ ⟨1, 1, 2, [5, 6]⟩ ⟨1, 0⟩ ⟨0, 0, 1⟩ 9 7
    (by decide) (by decide) (by decide) (by decide)

/-- C8: `at`, `at_mut` and `set` abort exactly when some coordinate component
fails to be strictly below the corresponding dimension, on both array types. -/
theorem claim_C8 {T : Type} (a : Array2D T) (b : Array3D T) (v u : T)
    (hwa : a.WF) (hwb : b.WF) :
    (∀ c : Coord2D,
      ((Array2D.«at» a c).isSome ↔ (c.x < a.width ∧ c.y < a.height)) ∧
      ((Array2D.at_mut a c).isSome ↔ (c.x < a.width ∧ c.y < a.height)) ∧
      ((Array2D.set a c v).isSome ↔ (c.x < a.width ∧ c.y < a.height)))
    ∧ (∀ c : Coord3D,
      ((Array3D.«at» b c).isSome ↔ (c.x < b.width ∧ c.y < b.height ∧ c.z < b.depth)) ∧
      ((Array3D.at_mut b c).isSome ↔ (c.x < b.width ∧ c.y < b.height ∧ c.z < b.depth)) ∧
      ((Array3D.set b c u).isSome ↔ (c.x < b.width ∧ c.y < b.height ∧ c.z < b.depth))) := by
  constructor
  · intro c
    refine ⟨Array2D.at_isSome a c hwa, ?_, Array2D.set_isSome a c v hwa⟩
    rw [Array2D.at_mut_eq_at]
    exact Array2D.at_isSome a c hwa
  · intro c
    refine ⟨Array3D.at_isSome3 b c hwb, ?_, Array3D.set_isSome3 b c u hwb⟩
    rw [Array3D.at_mut_eq_at3]
    exact Array3D.at_isSome3 b c hwb

/-- Witness for C8 on concrete arrays, at one in-bounds and one out-of-bounds
coordinate each. -/
theorem claim_C8_witness :
    (((Array2D.«at» (⟨2, 2, [0, 1, 2, 3]⟩ : Array2D Nat) ⟨1, 1⟩).isSome ↔ (1 < 2 ∧ 1 < 2)) ∧
      ((Array2D.at_mut (⟨2, 2, [0, 1, 2, 3]⟩ : Array2D Nat) ⟨1, 1⟩).isSome ↔ (1 < 2 ∧ 1 < 2)) ∧
      ((Array2D.set (⟨2, 2, [0, 1, 2, 3]⟩ : Array2D Nat) ⟨1, 1⟩ 9).isSome ↔ (1 < 2 ∧ 1 < 2)))
    ∧ (((Array3D.«at» (⟨1, 1, 2, [5, 6]⟩ : Array3D Nat) ⟨0, 0, 2⟩).isSome
        ↔ (0 < 1 ∧ 0 < 1 ∧ 2 < 2)) ∧
      ((Array3D.at_mut (⟨1, 1, 2, [5, 6]⟩ : Array3D Nat) ⟨0, 0, 2⟩).isSome
        ↔ (0 < 1 ∧ 0 < 1 ∧ 2 < 2)) ∧
      ((Array3D.set (⟨1, 1, 2, [5, 6]⟩ : Array3D Nat) ⟨0, 0, 2⟩ 7).isSome
        ↔ (0 < 1 ∧ 0 < 1 ∧ 2 < 2))) :=
  ⟨(claim_C8 (⟨2, 2, [0, 1, 2, 3]⟩ : Array2D Nat) (⟨1, 1, 2, [5, 6]⟩ : Array3D Nat) 9 7
      (by decide) (by decide)).1 ⟨1, 1⟩,
    (claim_C8 (⟨2, 2, [0, 1, 2, 3]⟩ : Array2D Nat) (⟨1, 1, 2, [5, 6]⟩ : Array3D Nat) 9 7
      (by decide) (by decide)).2 ⟨0, 0, 2⟩⟩

/-- C2: the 2D and 3D coordinate-to-linear-index maps are injective over
valid coordinates and land strictly below the backing length, and writing a
marker `f c` through every `(coord, &mut T)` pair of one full `iter_mut()`
traversal and reading back through `at` reproduces every marker exactly. -/
theorem claim_C2 {T : Type} (a : Array2D T) (b : Array3D T)
    (f2 : Coord2D → T) (f3 : Coord3D → T) (n m : Nat) (hwa : a.WF) (hwb : b.WF) :
    (∀ c c' : Coord2D, c.x < a.width → c.y < a.height → c'.x < a.width → c'.y < a.height →
      Array2D.coord_index a c = Array2D.coord_index a c' → c = c')
    ∧ (∀ c : Coord2D, c.x < a.width → c.y < a.height →
      Array2D.coord_index a c < a.width * a.height)
    ∧ (∀ c : Coord2D, c.x < a.width → c.y < a.height →
      Array2D.«at» (Array2D.iter_mut_write f2 (a.width * a.height + n + 1) a ⟨0, 0⟩) c
        = some (f2 c))
    ∧ (∀ c c' : Coord3D, c.x < b.width → c.y < b.height → c.z < b.depth →
      c'.x < b.width → c'.y < b.height → c'.z < b.depth →
      Array3D.coord_index b c = Array3D.coord_index b c' → c = c')
    ∧ (∀ c : Coord3D, c.x < b.width → c.y < b.height → c.z < b.depth →
      Array3D.coord_index b c < b.width * b.height * b.depth)
    ∧ (∀ c : Coord3D, c.x < b.width → c.y < b.height → c.z < b.depth →
      Array3D.«at» (Array3D.iter_mut_write f3 (b.width * b.height * b.depth + m + 1)
        b ⟨0, 0, 0⟩) c = some (f3 c)) := by
  refine ⟨?_, ?_, ?_, ?_, ?_, ?_⟩
  · intro c c' hx hy hx' hy' he
    exact Array2D.coord_index_inj a hx hx' he
  · intro c hx hy
    exact Array2D.coord_index_lt a hx hy
  · intro c hx hy
    exact marker_read2 a f2 hwa n c hx hy
  · intro c c' hx hy hz hx' hy' hz' he
    exact Array3D.coord_index_inj3 b hx hx' hy hy' he
  · intro c hx hy hz
    exact Array3D.coord_index_lt3 b hx hy hz
  · intro c hx hy hz
    exact marker_read3 b f3 hwb m c hx hy hz

/-- Witness for C2: distinct markers written through one full mutable
traversal of a 2×2 array (and a 1×1×2 array) are read back exactly. -/
theorem claim_C2_witness :
    Array2D.«at» (Array2D.iter_mut_write (fun c => c.x + 2 * c.y) (2 * 2 + 0 + 1)
      (⟨2, 2, [9, 9, 9, 9]⟩ : Array2D Nat) ⟨0, 0⟩) ⟨1, 1⟩ = some 3
    ∧ Array3D.«at» (Array3D.iter_mut_write (fun c => c.x + 10 * c.z) (1 * 1 * 2 + 0 + 1)
      (⟨1, 1, 2, [9, 9]⟩ : Array3D Nat) ⟨0, 0, 0⟩) ⟨0, 0, 1⟩ = some 10 :=
  ⟨(claim_C2 (⟨2, 2, [9, 9, 9, 9]⟩ : Array2D Nat) (⟨1, 1, 2, [9, 9]⟩ : Array3D Nat)
      (fun c => c.x + 2 * c.y) (fun c => c.x + 10 * c.z) 0 0
      (by decide) (by decide)).2.2.1 ⟨1, 1⟩ (by decide) (by decide),
    (claim_C2 (⟨2, 2, [9, 9, 9, 9]⟩ : Array2D Nat) (⟨1, 1, 2, [9, 9]⟩ : Array3D Nat)
      (fun c => c.x + 2 * c.y) (fun c => c.x + 10 * c.z) 0 0
      (by decide) (by decide)).2.2.2.2.2 ⟨0, 0, 1⟩ (by decide) (by decide) (by decide)⟩

/-- C4: one full `iter()` traversal of a 2D array yields exactly the pairs
`(c, at c)` over the row-major enumeration `coords2D` (which has length
`width*height`, no duplicates, and contains exactly the valid coordinates);
likewise in 3D with a full x-y plane exhausted before z increments. -/
theorem claim_C4 {T : Type} (a : Array2D T) (b : Array3D T) (n m : Nat) :
    Array2D.iter_collect a (a.width * a.height + n + 1) ⟨0, 0⟩
      = (coords2D a.width a.height).map (fun c => (c, Array2D.«at» a c))
    ∧ (coords2D a.width a.height).length = a.width * a.height
    ∧ (coords2D a.width a.height).Nodup
    ∧ (∀ c : Coord2D, c ∈ coords2D a.width a.height ↔ (c.x < a.width ∧ c.y < a.height))
    ∧ Array3D.iter_collect b (b.width * b.height * b.depth + m + 1) ⟨0, 0, 0⟩
      = (coords3D b.width b.height b.depth).map (fun c => (c, Array3D.«at» b c))
    ∧ (coords3D b.width b.height b.depth).length = b.width * b.height * b.depth
    ∧ (coords3D b.width b.height b.depth).Nodup
    ∧ (∀ c : Coord3D, c ∈ coords3D b.width b.height b.depth
        ↔ (c.x < b.width ∧ c.y < b.height ∧ c.z < b.depth)) := by
  refine ⟨?_, length_coords2D _ _, nodup_coords2D _ _, fun c => mem_coords2D _ _ c, ?_,
    length_coords3D _ _ _, nodup_coords3D _ _ _, fun c => mem_coords3D _ _ _ c⟩
  · rw [iter_collect2_eq, iterCoords2_full]
  · rw [iter_collect3_eq, iterCoords3_full]

/-- C6: `copy` aborts exactly when the destination footprint exceeds the
target's bounds; on success the footprint holds the source's cells and every
cell outside the footprint is unchanged. -/
theorem claim_C6 {T : Type} (a s : Array2D T) (dest : Coord2D) (hwa : a.WF) (hws : s.WF) :
    ((Array2D.copy a s dest).isSome
      ↔ (dest.x + s.width ≤ a.width ∧ dest.y + s.height ≤ a.height))
    ∧ ∀ a', Array2D.copy a s dest = some a' →
        (∀ i j, i < s.width → j < s.height →
          Array2D.«at» a' ⟨dest.x + i, dest.y + j⟩ = Array2D.«at» s ⟨i, j⟩)
        ∧ (∀ c : Coord2D, (c.x < dest.x ∨ dest.x + s.width ≤ c.x ∨ c.y < dest.y ∨
            dest.y + s.height ≤ c.y) → Array2D.«at» a' c = Array2D.«at» a c) := by
  constructor
  · constructor
    · intro hs
      by_contra hc
      unfold Array2D.copy at hs
      rw [if_neg hc] at hs
      simp at hs
    · intro hcond
      obtain ⟨a', ha', _⟩ := copy_spec a s dest hwa hws hcond.1 hcond.2
      rw [ha']
      rfl
  · intro a' ha'
    have hcond : dest.x + s.width ≤ a.width ∧ dest.y + s.height ≤ a.height := by
      by_contra hc
      unfold Array2D.copy at ha'
      rw [if_neg hc] at ha'
      simp at ha'
    obtain ⟨a'', ha'', _, _, _, hfoot, hframe⟩ := copy_spec a s dest hwa hws hcond.1 hcond.2
    rw [ha'] at ha''
    have heq : a' = a'' := Option.some.inj ha''
    subst heq
    exact ⟨hfoot, hframe⟩

/-- Witness for C6: copying a 1×1 array into a 2×2 array at (1,1). -/
theorem claim_C6_witness :
    ((Array2D.copy (⟨2, 2, [0, 1, 2, 3]⟩ : Array2D Nat) (⟨1, 1, [5]⟩ : Array2D Nat)
        ⟨1, 1⟩).isSome ↔ (1 + 1 ≤ 2 ∧ 1 + 1 ≤ 2))
    ∧ ∀ a', Array2D.copy (⟨2, 2, [0, 1, 2, 3]⟩ : Array2D Nat) (⟨1, 1, [5]⟩ : Array2D Nat)
          ⟨1, 1⟩ = some a' →
        (∀ i j, i < 1 → j < 1 →
          Array2D.«at» a' ⟨1 + i, 1 + j⟩ = Array2D.«at» (⟨1, 1, [5]⟩ : Array2D Nat) ⟨i, j⟩)
        ∧ (∀ c : Coord2D, (c.x < 1 ∨ 1 + 1 ≤ c.x ∨ c.y < 1 ∨ 1 + 1 ≤ c.y) →
          Array2D.«at» a' c = Array2D.«at» (⟨2, 2, [0, 1, 2, 3]⟩ : Array2D Nat) c) :=
  claim_C6 (⟨2, 2, [0, 1, 2, 3]⟩ : Array2D Nat) (⟨1, 1, [5]⟩ : Array2D Nat) ⟨1, 1⟩
    (by decide) (by decide)

/-- C3: with a valid destination plane, `copy_2d` succeeds, the footprint in
plane `dest.z` holds the 2D source's cells, and every cell in another plane
or outside the footprint within the same plane is unchanged. -/
theorem claim_C3 {T : Type} (a : Array3D T) (s : Array2D T) (dest : Coord3D)
    (hwa : a.WF) (hws : s.WF) (_hdepth : 1 < a.depth)
    (hx : dest.x + s.width ≤ a.width) (hy : dest.y + s.height ≤ a.height)
    (hz : dest.z < a.depth) :
    ∃ a', Array3D.copy_2d a s dest = some a' ∧
      (∀ i j, i < s.width → j < s.height →
        Array3D.«at» a' ⟨dest.x + i, dest.y + j, dest.z⟩ = Array2D.«at» s ⟨i, j⟩) ∧
      (∀ c : Coord3D, c.z ≠ dest.z → Array3D.«at» a' c = Array3D.«at» a c) ∧
      (∀ c : Coord3D, c.z = dest.z → (c.x < dest.x ∨ dest.x + s.width ≤ c.x ∨
        c.y < dest.y ∨ dest.y + s.height ≤ c.y) →
        Array3D.«at» a' c = Array3D.«at» a c) := by
  obtain ⟨a', ha', _, _, _, _, hfoot, hframe⟩ := copy_2d_spec a s dest hwa hws hx hy hz
  exact ⟨a', ha', hfoot, fun c hcz => hframe c (Or.inl hcz),
    fun c _ hout => hframe c (Or.inr hout)⟩

/-- Witness for C3: blitting a 2×1 source onto plane z = 1 of a 2×2×2 array. -/
theorem claim_C3_witness :
    ∃ a', Array3D.copy_2d (⟨2, 2, 2, [0, 1, 2, 3, 4, 5, 6, 7]⟩ : Array3D Nat)
        (⟨2, 1, [90, 91]⟩ : Array2D Nat) ⟨0, 1, 1⟩ = some a' ∧
      (∀ i j, i < 2 → j < 1 →
        Array3D.«at» a' ⟨0 + i, 1 + j, 1⟩ = Array2D.«at» (⟨2, 1, [90, 91]⟩ : Array2D Nat) ⟨i, j⟩) ∧
      (∀ c : Coord3D, c.z ≠ 1 →
        Array3D.«at» a' c = Array3D.«at» (⟨2, 2, 2, [0, 1, 2, 3, 4, 5, 6, 7]⟩ : Array3D Nat) c) ∧
      (∀ c : Coord3D, c.z = 1 → (c.x < 0 ∨ 0 + 2 ≤ c.x ∨ c.y < 1 ∨ 1 + 1 ≤ c.y) →
        Array3D.«at» a' c = Array3D.«at» (⟨2, 2, 2, [0, 1, 2, 3, 4, 5, 6, 7]⟩ : Array3D Nat) c) :=
  claim_C3 (⟨2, 2, 2, [0, 1, 2, 3, 4, 5, 6, 7]⟩ : Array3D Nat) (⟨2, 1, [90, 91]⟩ : Array2D Nat)
    ⟨0, 1, 1⟩ (by decide) (by decide) (by decide) (by decide) (by decide) (by decide)

/-- C10: `copy_2d` with a zero-height source and `dest.x + width`, `dest.y`
within bounds is a successful no-op — the whole array is returned unchanged —
and no check ever examines `dest.z`, so this holds even for `dest.z ≥ depth`. -/
theorem claim_C10 {T : Type} (a : Array3D T) (s : Array2D T) (dest : Coord3D)
    (hh : s.height = 0) (hx : dest.x + s.width ≤ a.width) (hy : dest.y ≤ a.height) :
    Array3D.copy_2d a s dest = some a := by
  unfold Array3D.copy_2d
  rw [if_pos ⟨hx, by omega⟩]
  unfold Array3D.copy_2d_data
  rw [hh]
  rfl

/-- Witness for C10: a zero-height source, with `dest.z = 7` far beyond the
depth 2, still yields a successful no-op. -/
theorem claim_C10_witness :
    Array3D.copy_2d (⟨2, 2, 2, [0, 1, 2, 3, 4, 5, 6, 7]⟩ : Array3D Nat)
      (⟨2, 0, []⟩ : Array2D Nat) ⟨0, 2, 7⟩
      = some (⟨2, 2, 2, [0, 1, 2, 3, 4, 5, 6, 7]⟩ : Array3D Nat) :=
  claim_C10 (⟨2, 2, 2, [0, 1, 2, 3, 4, 5, 6, 7]⟩ : Array3D Nat) (⟨2, 0, []⟩ : Array2D Nat)
    ⟨0, 2, 7⟩ (by decide) (by decide) (by decide)

/-- C5: extracting a fully in-bounds region of `A` with `sub` and blitting it
back at the same coordinate into an `A`-sized array `A2` that agrees with `A`
outside the region reproduces `A`'s cells inside the region, leaves `A2`'s
cells outside it untouched, and hence reads as `A` everywhere. -/
theorem claim_C5 {T : Type} (A A2 : Array2D T) (c : Coord2D) (w h : Nat)
    (hw : 0 < w) (hh : 0 < h) (hx : c.x + w ≤ A.width) (hy : c.y + h ≤ A.height)
    (hWA : A.WF) (hW2 : A2.WF) (hdw : A2.width = A.width) (hdh : A2.height = A.height)
    (hagree : ∀ c' : Coord2D, (c'.x < c.x ∨ c.x + w ≤ c'.x ∨ c'.y < c.y ∨ c.y + h ≤ c'.y) →
      Array2D.«at» A2 c' = Array2D.«at» A c') :
    ∃ s A2', Array2D.sub A c w h = some s ∧ Array2D.copy A2 s c = some A2' ∧
      (∀ i j, i < w → j < h →
        Array2D.«at» A2' ⟨c.x + i, c.y + j⟩ = Array2D.«at» A ⟨c.x + i, c.y + j⟩) ∧
      (∀ c' : Coord2D, (c'.x < c.x ∨ c.x + w ≤ c'.x ∨ c'.y < c.y ∨ c.y + h ≤ c'.y) →
        Array2D.«at» A2' c' = Array2D.«at» A2 c') ∧
      (∀ c' : Coord2D, Array2D.«at» A2' c' = Array2D.«at» A c') := by
  obtain ⟨s, hs, hsw, hsh, hswf, hsval⟩ := sub_spec A c w h hWA hw hh hx hy
  obtain ⟨A2', hA2', hw', hh', hwf', hfoot, hframe⟩ := copy_spec A2 s c hW2 hswf
    (by rw [hsw, hdw]; exact hx) (by rw [hsh, hdh]; exact hy)
  have hfoot' : ∀ i j, i < w → j < h →
      Array2D.«at» A2' ⟨c.x + i, c.y + j⟩ = Array2D.«at» A ⟨c.x + i, c.y + j⟩ := by
    intro i j hi hj
    rw [hfoot i j (by omega) (by omega), hsval i j hi hj]
  have hframe' : ∀ c' : Coord2D,
      (c'.x < c.x ∨ c.x + w ≤ c'.x ∨ c'.y < c.y ∨ c.y + h ≤ c'.y) →
      Array2D.«at» A2' c' = Array2D.«at» A2 c' := by
    intro c' hout
    exact hframe c' (by rw [hsw, hsh]; exact hout)
  refine ⟨s, A2', hs, hA2', hfoot', hframe', ?_⟩
  intro c'
  by_cases hreg : c.x ≤ c'.x ∧ c'.x < c.x + w ∧ c.y ≤ c'.y ∧ c'.y < c.y + h
  · have hc' : (⟨c.x + (c'.x - c.x), c.y + (c'.y - c.y)⟩ : Coord2D) = c' := by
      obtain ⟨x', y'⟩ := c'
      have hreg' : c.x ≤ x' ∧ x' < c.x + w ∧ c.y ≤ y' ∧ y' < c.y + h := hreg
      simp only [Coord2D.mk.injEq]
      constructor
      · omega
      · omega
    rw [← hc']
    exact hfoot' (c'.x - c.x) (c'.y - c.y) (by omega) (by omega)
  · have hout : c'.x < c.x ∨ c.x + w ≤ c'.x ∨ c'.y < c.y ∨ c.y + h ≤ c'.y := by omega
    rw [hframe' c' hout]
    exact hagree c' hout

/-- Witness for C5: a 2×2 region of a 4×3 array, blitted back into an array
that agrees with the source outside the region (here equal to it). -/
theorem claim_C5_witness :
    ∃ s A2', Array2D.sub (⟨4, 3, [0, 1, 2, 3, 4, 5, 6, 7, 8, 9, 10, 11]⟩ : Array2D Nat)
        ⟨1, 1⟩ 2 2 = some s ∧
      Array2D.copy (⟨4, 3, [0, 1, 2, 3, 4, 5, 6, 7, 8, 9, 10, 11]⟩ : Array2D Nat) s
        ⟨1, 1⟩ = some A2' ∧
      (∀ i j, i < 2 → j < 2 →
        Array2D.«at» A2' ⟨1 + i, 1 + j⟩
          = Array2D.«at» (⟨4, 3, [0, 1, 2, 3, 4, 5, 6, 7, 8, 9, 10, 11]⟩ : Array2D Nat)
              ⟨1 + i, 1 + j⟩) ∧
      (∀ c' : Coord2D, (c'.x < 1 ∨ 1 + 2 ≤ c'.x ∨ c'.y < 1 ∨ 1 + 2 ≤ c'.y) →
        Array2D.«at» A2' c'
          = Array2D.«at» (⟨4, 3, [0, 1, 2, 3, 4, 5, 6, 7, 8, 9, 10, 11]⟩ : Array2D Nat) c') ∧
      (∀ c' : Coord2D, Array2D.«at» A2' c'
          = Array2D.«at» (⟨4, 3, [0, 1, 2, 3, 4, 5, 6, 7, 8, 9, 10, 11]⟩ : Array2D Nat) c') :=
  claim_C5 (⟨4, 3, [0, 1, 2, 3, 4, 5, 6, 7, 8, 9, 10, 11]⟩ : Array2D Nat)
    (⟨4, 3, [0, 1, 2, 3, 4, 5, 6, 7, 8, 9, 10, 11]⟩ : Array2D Nat) ⟨1, 1⟩ 2 2
    (by decide) (by decide) (by decide) (by decide) (by decide) (by decide) (by decide)
    (by decide) (fun c' hout => rfl)

/-- C1, evidence of the code bug: on a 4×3 array, `sub((2,0), 3, 1)` has a
region exceeding the bounds (`2 + 3 > 4 = width`), yet the call succeeds and
returns `[2, 3, 4]` — whose last element is the source's cell `(0, 1)` from
the next row, silently wrapped — instead of aborting. -/
theorem claim_C1_eval :
    (⟨4, 3, [0, 1, 2, 3, 4, 5, 6, 7, 8, 9, 10, 11]⟩ : Array2D Nat).width < 2 + 3
    ∧ Array2D.sub (⟨4, 3, [0, 1, 2, 3, 4, 5, 6, 7, 8, 9, 10, 11]⟩ : Array2D Nat) ⟨2, 0⟩ 3 1
        = some ⟨3, 1, [2, 3, 4]⟩
    ∧ Array2D.«at» (⟨4, 3, [0, 1, 2, 3, 4, 5, 6, 7, 8, 9, 10, 11]⟩ : Array2D Nat) ⟨0, 1⟩
        = some 4 := by
  decide

/-! ### Length preservation of the fallible loops, from success alone -/

theorem listSlice_length_of_eq {T : Type} {l r : List T} {b e : Nat}
    (h : listSlice l b e = some r) : r.length = e - b := by
  unfold listSlice at h
  by_cases hc : b ≤ e ∧ e ≤ l.length
  · rw [if_pos hc] at h
    have hr := Option.some.inj h
    rw [← hr]
    exact listSlice_length hc.1 hc.2
  · rw [if_neg hc] at h
    simp at h

theorem writeSlice_length_of_eq {T : Type} {l src r : List T} {b e : Nat}
    (h : writeSlice l b e src = some r) : r.length = l.length := by
  unfold writeSlice at h
  by_cases hc : b ≤ e ∧ e ≤ l.length ∧ src.length = e - b
  · rw [if_pos hc] at h
    have hr := Option.some.inj h
    rw [← hr]
    exact writeSlice_length hc.1 hc.2.1 hc.2.2
  · rw [if_neg hc] at h
    simp at h

theorem sub_data_length {T : Type} : ∀ (h : Nat) (a : Array2D T) (c : Coord2D) (w : Nat)
    (r : List T), Array2D.sub_data a c w h = some r → r.length = h * w := by
  intro h
  induction h with
  | zero =>
      intro a c w r hr
      have hr' : ([] : List T) = r := by
        unfold Array2D.sub_data at hr
        simpa using hr
      rw [← hr']
      simp
  | succ h ih =>
      intro a c w r hr
      unfold Array2D.sub_data at hr
      rw [List.range_succ, List.foldlM_append] at hr
      cases hprev : Array2D.sub_data a c w h with
      | none =>
          unfold Array2D.sub_data at hprev
          rw [hprev] at hr
          simp at hr
      | some r0 =>
          unfold Array2D.sub_data at hprev
          rw [hprev] at hr
          simp only [Option.bind_eq_bind, Option.some_bind, List.foldlM] at hr
          cases hsl : listSlice a.data (a.width * (c.y + h) + c.x)
              (a.width * (c.y + h) + c.x + w) with
          | none =>
              rw [hsl] at hr
              simp at hr
          | some sl =>
              rw [hsl] at hr
              simp at hr
              have hlen0 : r0.length = h * w := ih a c w r0 hprev
              have hlsl : sl.length = w := by
                have := listSlice_length_of_eq hsl
                omega
              rw [← hr, List.length_append, hlen0, hlsl, Nat.succ_mul]

theorem blit_loop_length {T : Type} (sdata : List T) (sw : Nat) (base : Nat → Nat) :
    ∀ (n : Nat) (d r : List T), blit_loop d sdata sw base n = some r →
      r.length = d.length := by
  intro n
  induction n with
  | zero =>
      intro d r h
      have h' : d = r := by
        unfold blit_loop at h
        simpa using h
      rw [h']
  | succ n ih =>
      intro d r h
      unfold blit_loop at h
      rw [List.range_succ, List.foldlM_append] at h
      cases hprev : blit_loop d sdata sw base n with
      | none =>
          unfold blit_loop at hprev
          rw [hprev] at h
          simp at h
      | some r0 =>
          unfold blit_loop at hprev
          rw [hprev] at h
          simp only [Option.bind_eq_bind, Option.some_bind, List.foldlM] at h
          cases hsl : listSlice sdata (sw * n) (sw * n + sw) with
          | none =>
              rw [hsl] at h
              simp at h
          | some sl =>
              rw [hsl] at h
              simp only [Option.bind_eq_bind, Option.bind_some] at h
              have h0 : r0.length = d.length := ih d r0 hprev
              have h1 : r.length = r0.length :=
                @writeSlice_length_of_eq T r0 sl r (base n) (base n + sw) (by simpa using h)
              rw [h1, h0]

/-- C9: every constructor (`new_with`, `sub`) establishes the backing-length
invariant `data.length = width*height` (times `depth` in 3D) together with the
stated dimensions, and every mutating operation (`set`, `copy`, `copy_2d`,
writes through `iter_mut` or `data_mut`) preserves the invariant and leaves
all dimensions unchanged. -/
theorem claim_C9 {T : Type} :
    (∀ (w h : Nat) (v : T), (Array2D.new_with w h v).WF ∧
      (Array2D.new_with w h v).width = w ∧ (Array2D.new_with w h v).height = h)
    ∧ (∀ (a : Array2D T) (c : Coord2D) (w h : Nat) (s : Array2D T),
        Array2D.sub a c w h = some s → s.WF ∧ s.width = w ∧ s.height = h)
    ∧ (∀ (a : Array2D T) (c : Coord2D) (v : T) (a' : Array2D T), a.WF →
        Array2D.set a c v = some a' →
        a'.WF ∧ a'.width = a.width ∧ a'.height = a.height)
    ∧ (∀ (a src : Array2D T) (dest : Coord2D) (a' : Array2D T), a.WF →
        Array2D.copy a src dest = some a' →
        a'.WF ∧ a'.width = a.width ∧ a'.height = a.height)
    ∧ (∀ (a : Array2D T) (f : Coord2D → T) (n : Nat) (c : Coord2D), a.WF →
        (Array2D.iter_mut_write f n a c).WF ∧
        (Array2D.iter_mut_write f n a c).width = a.width ∧
        (Array2D.iter_mut_write f n a c).height = a.height)
    ∧ (∀ (a : Array2D T) (i : Nat) (v : T), a.WF →
        (Array2D.data_mut_write a i v).WF ∧
        (Array2D.data_mut_write a i v).width = a.width ∧
        (Array2D.data_mut_write a i v).height = a.height)
    ∧ (∀ (w h d : Nat) (v : T), (Array3D.new_with w h d v).WF ∧
        (Array3D.new_with w h d v).width = w ∧ (Array3D.new_with w h d v).height = h ∧
        (Array3D.new_with w h d v).depth = d)
    ∧ (∀ (b : Array3D T) (c : Coord3D) (v : T) (b' : Array3D T), b.WF →
        Array3D.set b c v = some b' →
        b'.WF ∧ b'.width = b.width ∧ b'.height = b.height ∧ b'.depth = b.depth)
    ∧ (∀ (b : Array3D T) (src : Array2D T) (dest : Coord3D) (b' : Array3D T), b.WF →
        Array3D.copy_2d b src dest = some b' →
        b'.WF ∧ b'.width = b.width ∧ b'.height = b.height ∧ b'.depth = b.depth)
    ∧ (∀ (b : Array3D T) (f : Coord3D → T) (n : Nat) (c : Coord3D), b.WF →
        (Array3D.iter_mut_write f n b c).WF ∧
        (Array3D.iter_mut_write f n b c).width = b.width ∧
        (Array3D.iter_mut_write f n b c).height = b.height ∧
        (Array3D.iter_mut_write f n b c).depth = b.depth)
    ∧ (∀ (b : Array3D T) (i : Nat) (v : T), b.WF →
        (Array3D.data_mut_write b i v).WF ∧
        (Array3D.data_mut_write b i v).width = b.width ∧
        (Array3D.data_mut_write b i v).height = b.height ∧
        (Array3D.data_mut_write b i v).depth = b.depth) := by
  refine ⟨?_, ?_, ?_, ?_, ?_, ?_, ?_, ?_, ?_, ?_, ?_⟩
  · intro w h v
    exact ⟨by simp [Array2D.new_with, Array2D.WF], rfl, rfl⟩
  · intro a c w h s hsub
    unfold Array2D.sub at hsub
    by_cases hc : 0 < w ∧ 0 < h ∧ Array2D.coord_is_valid a c = true
    · rw [if_pos hc] at hsub
      cases hsd : Array2D.sub_data a c w h with
      | none =>
          rw [hsd] at hsub
          simp at hsub
      | some r =>
          rw [hsd] at hsub
          have hsub' : some (⟨w, h, r⟩ : Array2D T) = some s := hsub
          rw [← Option.some.inj hsub']
          refine ⟨?_, rfl, rfl⟩
          show r.length = w * h
          rw [sub_data_length h a c w r hsd, Nat.mul_comm]
    · rw [if_neg hc] at hsub
      simp at hsub
  · intro a c v a' hwf hset
    unfold Array2D.set at hset
    cases hat : Array2D.at_mut a c with
    | none =>
        rw [hat] at hset
        simp at hset
    | some t =>
        rw [hat] at hset
        have hset' : some ({ a with data := a.data.set (Array2D.coord_index a c) v }
            : Array2D T) = some a' := hset
        rw [← Option.some.inj hset']
        refine ⟨?_, rfl, rfl⟩
        show (a.data.set (Array2D.coord_index a c) v).length = a.width * a.height
        rw [List.length_set]
        exact hwf
  · intro a src dest a' hwf hcopy
    unfold Array2D.copy at hcopy
    by_cases hc : dest.x + src.width ≤ a.width ∧ dest.y + src.height ≤ a.height
    · rw [if_pos hc] at hcopy
      cases hcd : Array2D.copy_data a.width a.data src dest with
      | none =>
          rw [hcd] at hcopy
          simp at hcopy
      | some d =>
          rw [hcd] at hcopy
          have hcopy' : some ({ a with data := d } : Array2D T) = some a' := hcopy
          rw [← Option.some.inj hcopy']
          refine ⟨?_, rfl, rfl⟩
          show d.length = a.width * a.height
          have hblit : blit_loop a.data src.data src.width
              (fun i => a.width * (dest.y + i) + dest.x) src.height = some d := by
            rw [← copy_data_eq_blit]
            exact hcd
          rw [blit_loop_length _ _ _ _ _ _ hblit]
          exact hwf
    · rw [if_neg hc] at hcopy
      simp at hcopy
  · intro a f n c hwf
    rw [iter_mut_write2_eq]
    refine ⟨?_, rfl, rfl⟩
    show (write_pairs a.data _).length = a.width * a.height
    rw [write_pairs_length]
    exact hwf
  · intro a i v hwf
    refine ⟨?_, rfl, rfl⟩
    show (a.data.set i v).length = a.width * a.height
    rw [List.length_set]
    exact hwf
  · intro w h d v
    exact ⟨by simp [Array3D.new_with, Array3D.WF], rfl, rfl, rfl⟩
  · intro b c v b' hwf hset
    unfold Array3D.set at hset
    cases hat : Array3D.at_mut b c with
    | none =>
        rw [hat] at hset
        simp at hset
    | some t =>
        rw [hat] at hset
        have hset' : some ({ b with data := b.data.set (Array3D.coord_index b c) v }
            : Array3D T) = some b' := hset
        rw [← Option.some.inj hset']
        refine ⟨?_, rfl, rfl, rfl⟩
        show (b.data.set (Array3D.coord_index b c) v).length
          = b.width * b.height * b.depth
        rw [List.length_set]
        exact hwf
  · intro b src dest b' hwf hcopy
    unfold Array3D.copy_2d at hcopy
    by_cases hc : dest.x + src.width ≤ b.width ∧ dest.y + src.height ≤ b.height
    · rw [if_pos hc] at hcopy
      cases hcd : Array3D.copy_2d_data b b.data src dest with
      | none =>
          rw [hcd] at hcopy
          simp at hcopy
      | some d =>
          rw [hcd] at hcopy
          have hcopy' : some ({ b with data := d } : Array3D T) = some b' := hcopy
          rw [← Option.some.inj hcopy']
          refine ⟨?_, rfl, rfl, rfl⟩
          show d.length = b.width * b.height * b.depth
          have hblit : blit_loop b.data src.data src.width
              (fun i => Array3D.coord_index b ⟨dest.x, dest.y + i, dest.z⟩) src.height
              = some d := by
            rw [← copy_2d_data_eq_blit]
            exact hcd
          rw [blit_loop_length _ _ _ _ _ _ hblit]
          exact hwf
    · rw [if_neg hc] at hcopy
      simp at hcopy
  · intro b f n c hwf
    rw [iter_mut_write3_eq]
    refine ⟨?_, rfl, rfl, rfl⟩
    show (write_pairs b.data _).length = b.width * b.height * b.depth
    rw [write_pairs_length]
    exact hwf
  · intro b i v hwf
    refine ⟨?_, rfl, rfl, rfl⟩
    show (b.data.set i v).length = b.width * b.height * b.depth
    rw [List.length_set]
    exact hwf

/-- Witness for C9: each constructor and mutator conjunct instantiated on a
small concrete array, with every success hypothesis discharged by evaluation. -/
theorem claim_C9_witness :
    ((Array2D.new_with 2 3 (0 : Nat)).WF ∧ (Array2D.new_with 2 3 (0 : Nat)).width = 2 ∧
      (Array2D.new_with 2 3 (0 : Nat)).height = 3)
    ∧ ((⟨1, 1, [0]⟩ : Array2D Nat).WF ∧ (⟨1, 1, [0]⟩ : Array2D Nat).width = 1 ∧
      (⟨1, 1, [0]⟩ : Array2D Nat).height = 1)
    ∧ ((⟨2, 2, [0, 1, 2, 9]⟩ : Array2D Nat).WF ∧
      (⟨2, 2, [0, 1, 2, 9]⟩ : Array2D Nat).width = (⟨2, 2, [0, 1, 2, 3]⟩ : Array2D Nat).width ∧
      (⟨2, 2, [0, 1, 2, 9]⟩ : Array2D Nat).height = (⟨2, 2, [0, 1, 2, 3]⟩ : Array2D Nat).height)
    ∧ ((⟨2, 2, [0, 1, 2, 5]⟩ : Array2D Nat).WF ∧
      (⟨2, 2, [0, 1, 2, 5]⟩ : Array2D Nat).width = (⟨2, 2, [0, 1, 2, 3]⟩ : Array2D Nat).width ∧
      (⟨2, 2, [0, 1, 2, 5]⟩ : Array2D Nat).height = (⟨2, 2, [0, 1, 2, 3]⟩ : Array2D Nat).height)
    ∧ ((Array2D.iter_mut_write (fun _ => 0) 0 (⟨2, 2, [0, 1, 2, 3]⟩ : Array2D Nat) ⟨0, 0⟩).WF ∧
      (Array2D.iter_mut_write (fun _ => 0) 0 (⟨2, 2, [0, 1, 2, 3]⟩ : Array2D Nat) ⟨0, 0⟩).width
        = (⟨2, 2, [0, 1, 2, 3]⟩ : Array2D Nat).width ∧
      (Array2D.iter_mut_write (fun _ => 0) 0 (⟨2, 2, [0, 1, 2, 3]⟩ : Array2D Nat) ⟨0, 0⟩).height
        = (⟨2, 2, [0, 1, 2, 3]⟩ : Array2D Nat).height)
    ∧ ((Array2D.data_mut_write (⟨2, 2, [0, 1, 2, 3]⟩ : Array2D Nat) 0 7).WF ∧
      (Array2D.data_mut_write (⟨2, 2, [0, 1, 2, 3]⟩ : Array2D Nat) 0 7).width
        = (⟨2, 2, [0, 1, 2, 3]⟩ : Array2D Nat).width ∧
      (Array2D.data_mut_write (⟨2, 2, [0, 1, 2, 3]⟩ : Array2D Nat) 0 7).height
        = (⟨2, 2, [0, 1, 2, 3]⟩ : Array2D Nat).height)
    ∧ ((Array3D.new_with 1 1 2 (0 : Nat)).WF ∧ (Array3D.new_with 1 1 2 (0 : Nat)).width = 1 ∧
      (Array3D.new_with 1 1 2 (0 : Nat)).height = 1 ∧
      (Array3D.new_with 1 1 2 (0 : Nat)).depth = 2)
    ∧ ((⟨1, 1, 2, [5, 7]⟩ : Array3D Nat).WF ∧
      (⟨1, 1, 2, [5, 7]⟩ : Array3D Nat).width = (⟨1, 1, 2, [5, 6]⟩ : Array3D Nat).width ∧
      (⟨1, 1, 2, [5, 7]⟩ : Array3D Nat).height = (⟨1, 1, 2, [5, 6]⟩ : Array3D Nat).height ∧
      (⟨1, 1, 2, [5, 7]⟩ : Array3D Nat).depth = (⟨1, 1, 2, [5, 6]⟩ : Array3D Nat).depth)
    ∧ ((⟨1, 1, 2, [5, 9]⟩ : Array3D Nat).WF ∧
      (⟨1, 1, 2, [5, 9]⟩ : Array3D Nat).width = (⟨1, 1, 2, [5, 6]⟩ : Array3D Nat).width ∧
      (⟨1, 1, 2, [5, 9]⟩ : Array3D Nat).height = (⟨1, 1, 2, [5, 6]⟩ : Array3D Nat).height ∧
      (⟨1, 1, 2, [5, 9]⟩ : Array3D Nat).depth = (⟨1, 1, 2, [5, 6]⟩ : Array3D Nat).depth)
    ∧ ((Array3D.iter_mut_write (fun _ => 0) 0 (⟨1, 1, 2, [5, 6]⟩ : Array3D Nat) ⟨0, 0, 0⟩).WF ∧
      (Array3D.iter_mut_write (fun _ => 0) 0 (⟨1, 1, 2, [5, 6]⟩ : Array3D Nat) ⟨0, 0, 0⟩).width
        = (⟨1, 1, 2, [5, 6]⟩ : Array3D Nat).width ∧
      (Array3D.iter_mut_write (fun _ => 0) 0 (⟨1, 1, 2, [5, 6]⟩ : Array3D Nat) ⟨0, 0, 0⟩).height
        = (⟨1, 1, 2, [5, 6]⟩ : Array3D Nat).height ∧
      (Array3D.iter_mut_write (fun _ => 0) 0 (⟨1, 1, 2, [5, 6]⟩ : Array3D Nat) ⟨0, 0, 0⟩).depth
        = (⟨1, 1, 2, [5, 6]⟩ : Array3D Nat).depth)
    ∧ ((Array3D.data_mut_write (⟨1, 1, 2, [5, 6]⟩ : Array3D Nat) 0 7).WF ∧
      (Array3D.data_mut_write (⟨1, 1, 2, [5, 6]⟩ : Array3D Nat) 0 7).width
        = (⟨1, 1, 2, [5, 6]⟩ : Array3D Nat).width ∧
      (Array3D.data_mut_write (⟨1, 1, 2, [5, 6]⟩ : Array3D Nat) 0 7).height
        = (⟨1, 1, 2, [5, 6]⟩ : Array3D Nat).height ∧
      (Array3D.data_mut_write (⟨1, 1, 2, [5, 6]⟩ : Array3D Nat) 0 7).depth
        = (⟨1, 1, 2, [5, 6]⟩ : Array3D Nat).depth) :=
  ⟨(@claim_C9 Nat).1 2 3 0,
    (@claim_C9 Nat).2.1 ⟨2, 2, [0, 1, 2, 3]⟩ ⟨0, 0⟩ 1 1 ⟨1, 1, [0]⟩ (by decide),
    (@claim_C9 Nat).2.2.1 ⟨2, 2, [0, 1, 2, 3]⟩ ⟨1, 1⟩ 9 ⟨2, 2, [0, 1, 2, 9]⟩
      (by decide) (by decide),
    (@claim_C9 Nat).2.2.2.1 ⟨2, 2, [0, 1, 2, 3]⟩ ⟨1, 1, [5]⟩ ⟨1, 1⟩ ⟨2, 2, [0, 1, 2, 5]⟩
      (by decide) (by decide),
    (@claim_C9 Nat).2.2.2.2.1 ⟨2, 2, [0, 1, 2, 3]⟩ (fun _ => 0) 0 ⟨0, 0⟩ (by decide),
    (@claim_C9 Nat).2.2.2.2.2.1 ⟨2, 2, [0, 1, 2, 3]⟩ 0 7 (by decide),
    (@claim_C9 Nat).2.2.2.2.2.2.1 1 1 2 0,
    (@claim_C9 Nat).2.2.2.2.2.2.2.1 ⟨1, 1, 2, [5, 6]⟩ ⟨0, 0, 1⟩ 7 ⟨1, 1, 2, [5, 7]⟩
      (by decide) (by decide),
    (@claim_C9 Nat).2.2.2.2.2.2.2.2.1 ⟨1, 1, 2, [5, 6]⟩ ⟨1, 1, [9]⟩ ⟨0, 0, 1⟩
      ⟨1, 1, 2, [5, 9]⟩ (by decide) (by decide),
    (@claim_C9 Nat).2.2.2.2.2.2.2.2.2.1 ⟨1, 1, 2, [5, 6]⟩ (fun _ => 0) 0 ⟨0, 0, 0⟩ (by decide),
    (@claim_C9 Nat).2.2.2.2.2.2.2.2.2.2 ⟨1, 1, 2, [5, 6]⟩ 0 7 (by decide)⟩

/-- Witness for C4: full traversals of a concrete 2×2 array and 1×1×2 array
equal the mapped row-major enumerations. -/
theorem claim_C4_witness :
    Array2D.iter_collect (⟨2, 2, [4, 5, 6, 7]⟩ : Array2D Nat) (2 * 2 + 0 + 1) ⟨0, 0⟩
      = (coords2D 2 2).map (fun c => (c, Array2D.«at» (⟨2, 2, [4, 5, 6, 7]⟩ : Array2D Nat) c))
    ∧ Array3D.iter_collect (⟨1, 1, 2, [5, 6]⟩ : Array3D Nat) (1 * 1 * 2 + 0 + 1) ⟨0, 0, 0⟩
      = (coords3D 1 1 2).map (fun c => (c, Array3D.«at» (⟨1, 1, 2, [5, 6]⟩ : Array3D Nat) c)) :=
  ⟨(claim_C4 (⟨2, 2, [4, 5, 6, 7]⟩ : Array2D Nat) (⟨1, 1, 2, [5, 6]⟩ : Array3D Nat) 0 0).1,
    (claim_C4 (⟨2, 2, [4, 5, 6, 7]⟩ : Array2D Nat) (⟨1, 1, 2, [5, 6]⟩ : Array3D Nat) 0 0).2.2.2.2.1⟩
